import Mathlib

/-!
Shallow embedding of the database cloning engine in src/src/mongo/db/cloner.cpp.

Pure control flow is translated directly; external collaborators (the remote
connection, the storage engine, the replication-role oracle, the catalog, the
document validator) are modelled as oracle data threaded through explicit
environment records, matching the outcomes the source observes from them.
Every operation additionally emits a trace of the externally visible actions
it performs, so that ordering and emission properties can be stated.
-/

namespace ClonerModel

/-- Error outcomes surfaced by the cloning engine, one constructor per
distinct error path in cloner.cpp (uassert / msgasserted / returned Status). -/
inductive Err
  | notMaster
  | primarySteppedDown
  | databaseDropped
  | collectionDropped
  | corruptData
  | interrupted
  | storage (code : Nat)
  | namespaceExists
  | invalidOptions
  | uuidParseFailed
  | illegalOperation
  | hostUnreachable
  | authFailed
  | commandFailed
  | userNotAllowed
  | optionsParseFailed
  | nameExtractFailed
  | connStringParseFailed
  | indexBuildEntryFailed
  | indexInitFailed (code : Nat)
  | indexInsertFailed (code : Nat)
  | indexCheckFailed (code : Nat)
  | indexCommitFailed (code : Nat)
  | fatalAssertion
  deriving DecidableEq, Repr

/-- An index specification as the cloner sees it: a BSON object with a
mandatory "name" field (uasserted in _getIdIndexSpec) and a body. -/
structure IdxSpec where
  specName : String
  body : Nat
  deriving DecidableEq, Repr, Inhabited

/-- Cloner::_getIdIndexSpec: the first spec whose name field is exactly
the string underscore-id-underscore; none models the empty BSONObj result. -/
def getIdIndexSpec (indexSpecs : List IdxSpec) : Option IdxSpec :=
  indexSpecs.find? (fun s => s.specName == "_id_")

/-- Externally visible actions performed by the engine, recorded in traces. -/
inductive Ev
  | checkInterrupt
  | releaseLock
  | acquireLock
  | verifyCanAcceptWrites
  | verifyDbExists
  | verifyCollExists
  | skipCorruptDoc (ns : String) (d : Nat)
  | insertAttempt (ns : String) (d : Nat)
  | commitDoc (ns : String) (d : Nat)
  | createColl (ns : String) (opts : Nat) (createDefaultIndexes : Bool)
      (idIndex : Option IdxSpec)
  | addCloned (ns : String)
  | beginCopy (ns : String)
  | connectRemote
  | addIndexBuildEntry (ns : String)
  | startIndexBuild (ns : String)
  | abortIndexBuild (ns : String)
  | onCreateIndex (ns : String) (spec : IdxSpec)
  | onCommitIndexBuild (ns : String)
  deriving DecidableEq, Repr

/-- One iteration of the write-conflict retry loop as observed at a call
site: the body's interrupt check throws, the body aborts with the storage
engine's write-conflict signal, or the body runs to completion with value a. -/
inductive WCAttempt (α : Type)
  | interrupted
  | conflict
  | done (a : α)
  deriving DecidableEq, Repr

/-- Result of the write-conflict retry loop when it terminates. -/
inductive WCRes (α : Type)
  | interrupted
  | completed (a : α)
  deriving DecidableEq, Repr

/-- Modelled from the spec: the implementation of writeConflictRetry is not
under src/ (only its call sites in cloner.cpp are). Per the spec, a
transaction that aborts due to the internal write-conflict signal is
silently retried with no retry-count cap, bounded only by the cooperative
cancellation check at the top of each attempt; any other completion ends
the loop. The input list gives the outcome of each successive attempt;
an exhausted list (all conflicts) models a loop that never returns. -/
def writeConflictRetry {α : Type} : List (WCAttempt α) → Option (WCRes α)
  | [] => none
  | WCAttempt.interrupted :: _ => some WCRes.interrupted
  | WCAttempt.conflict :: rest => writeConflictRetry rest
  | WCAttempt.done a :: _ => some (WCRes.completed a)

/-- One iteration of a retry loop whose body is deterministic given the
pre-state: either the interrupt check throws, the body aborts with a
write conflict, or the body runs. -/
inductive WCIter
  | interrupted
  | conflict
  | run
  deriving DecidableEq, Repr

/-- Instantiates an iteration schedule with the (deterministic) body value. -/
def toAttempts {α : Type} (iters : List WCIter) (body : α) : List (WCAttempt α) :=
  iters.map fun it =>
    match it with
    | WCIter.interrupted => WCAttempt.interrupted
    | WCIter.conflict => WCAttempt.conflict
    | WCIter.run => WCAttempt.done body

/-- Structured outcome of Collection::insertDocument as observed by the
cloner: success, a duplicate-key failure, or any other storage failure. -/
inductive InsertOutcome
  | ok
  | duplicateKey
  | err (code : Nat)
  deriving DecidableEq, Repr

/-- State of the external world observed at a yield boundary in
Cloner::Fun::operator(): the interrupt flag at the pre-release check, the
replication-role oracle, and catalog existence of the db and collection
after the lock is re-acquired. -/
structure YieldEnv where
  interrupted : Bool
  canAcceptWrites : Bool
  dbExists : Bool
  collExists : Bool
  deriving DecidableEq, Repr

/-- A document from the remote cursor: its identity and the outcome of
validateBSON on its serialized form. -/
structure Doc where
  docId : Nat
  wellFormed : Bool
  deriving DecidableEq, Repr

/-- One element of a remote batch, together with the external-world state
at its processing and the per-attempt outcomes of its insert transaction. -/
structure DocItem where
  env : YieldEnv
  doc : Doc
  attempts : List (WCAttempt InsertOutcome)
  deriving DecidableEq, Repr

/-- Configuration flags of one clone invocation: opCtx->writesAreReplicated()
and the gSkipCorruptDocumentsWhenCloning server parameter. -/
structure CopyCfg where
  replicated : Bool
  skipCorrupt : Bool
  deriving DecidableEq, Repr

/-- Per-collection progress state of Cloner::Fun: the numSeen counter and
the ids of documents whose insert transactions committed. -/
structure FunState where
  numSeen : Nat
  inserted : List Nat
  deriving DecidableEq, Repr

/-- The yield block of Cloner::Fun::operator() (lines 133-166): interrupt
check, lock release and re-acquisition, then, in order, the role check
(only when writes are replicated), the database-existence check (28593)
and the collection-existence check (28594). -/
def yieldCheck (replicated : Bool) (env : YieldEnv) : Option Err × List Ev :=
  if env.interrupted then (some Err.interrupted, [Ev.checkInterrupt])
  else
    let pre := [Ev.checkInterrupt, Ev.releaseLock, Ev.acquireLock]
    if replicated && !env.canAcceptWrites then
      (some Err.primarySteppedDown, pre ++ [Ev.verifyCanAcceptWrites])
    else
      let pre2 := pre ++ (if replicated then [Ev.verifyCanAcceptWrites] else [])
      if !env.dbExists then (some Err.databaseDropped, pre2 ++ [Ev.verifyDbExists])
      else if !env.collExists then
        (some Err.collectionDropped, pre2 ++ [Ev.verifyDbExists, Ev.verifyCollExists])
      else (none, pre2 ++ [Ev.verifyDbExists, Ev.verifyCollExists])

/-- The yield gate at the top of each batch element: the yield block runs
exactly when numSeen mod 128 equals 127. -/
def yieldGate (cfg : CopyCfg) (st : FunState) (item : DocItem) : Option Err × List Ev :=
  if st.numSeen % 128 = 127 then yieldCheck cfg.replicated item.env else (none, [])

/-- Trace of the insert retry loop for one document: each attempt begins
with the body's interrupt check; a committed insert additionally records
the commit. The trace stops at the first non-conflict attempt. -/
def retryEvs (ns : String) (d : Nat) : List (WCAttempt InsertOutcome) → List Ev
  | [] => []
  | WCAttempt.interrupted :: _ => [Ev.checkInterrupt]
  | WCAttempt.conflict :: rest =>
      Ev.checkInterrupt :: Ev.insertAttempt ns d :: retryEvs ns d rest
  | WCAttempt.done InsertOutcome.ok :: _ =>
      [Ev.checkInterrupt, Ev.insertAttempt ns d, Ev.commitDoc ns d]
  | WCAttempt.done InsertOutcome.duplicateKey :: _ =>
      [Ev.checkInterrupt, Ev.insertAttempt ns d]
  | WCAttempt.done (InsertOutcome.err _) :: _ =>
      [Ev.checkInterrupt, Ev.insertAttempt ns d]

/-- Result of processing one batch element. -/
inductive StepRes
  | abort (e : Err)
  | cont (st : FunState)
  | diverge
  deriving DecidableEq, Repr

/-- Processing of one batch element in Cloner::Fun::operator() (lines
132-217): the yield gate, BSON validation with the skip-corrupt policy
(28531 on strict failure), then the insert wrapped in writeConflictRetry,
treating DuplicateKey as non-fatal and any other failure as fatal; only a
successful insert commits. -/
def processItem (cfg : CopyCfg) (ns : String) (st : FunState) (item : DocItem) :
    StepRes × List Ev :=
  match yieldGate cfg st item with
  | (some e, yevs) => (StepRes.abort e, yevs)
  | (none, yevs) =>
    if !item.doc.wellFormed then
      if cfg.skipCorrupt then
        (StepRes.cont st, yevs ++ [Ev.skipCorruptDoc ns item.doc.docId])
      else (StepRes.abort Err.corruptData, yevs)
    else
      let st1 : FunState := { st with numSeen := st.numSeen + 1 }
      let ievs := retryEvs ns item.doc.docId item.attempts
      match writeConflictRetry item.attempts with
      | none => (StepRes.diverge, yevs ++ ievs)
      | some WCRes.interrupted => (StepRes.abort Err.interrupted, yevs ++ ievs)
      | some (WCRes.completed InsertOutcome.ok) =>
          (StepRes.cont { st1 with inserted := st1.inserted ++ [item.doc.docId] },
            yevs ++ ievs)
      | some (WCRes.completed InsertOutcome.duplicateKey) => (StepRes.cont st1, yevs ++ ievs)
      | some (WCRes.completed (InsertOutcome.err c)) =>
          (StepRes.abort (Err.storage c), yevs ++ ievs)

/-- Result of one batch (or whole-collection) run of the document copier;
an abort carries the state reached before the aborting element. -/
inductive BatchRes
  | ok (st : FunState)
  | abort (e : Err) (st : FunState)
  | diverge (st : FunState)
  deriving DecidableEq, Repr

/-- The while loop of Cloner::Fun::operator() over the current batch. -/
def runBatch (cfg : CopyCfg) (ns : String) : FunState → List DocItem → BatchRes × List Ev
  | st, [] => (BatchRes.ok st, [])
  | st, item :: rest =>
    match processItem cfg ns st item with
    | (StepRes.abort e, evs) => (BatchRes.abort e st, evs)
    | (StepRes.diverge, evs) => (BatchRes.diverge st, evs)
    | (StepRes.cont st1, evs) =>
      let r := runBatch cfg ns st1 rest
      (r.1, evs ++ r.2)

/-- External-world state observed by one invocation of
Cloner::Fun::operator() before its batch loop: the entry role check, the
catalog lookup of the target collection, and the iteration schedule plus
body outcomes of the createCollection retry when the collection is missing. -/
structure FunEntryEnv where
  canAcceptWrites : Bool
  collExists : Bool
  createIters : List WCIter
  optionsParseOk : Bool
  createOk : Bool
  deriving DecidableEq, Repr

/-- Body of the createCollection write-conflict retry: CollectionOptions
parsing (uassertStatusOK) then db->userCreateNS under an invariant. -/
def createBody (optionsParseOk createOk : Bool) : Option Err :=
  if !optionsParseOk then some Err.optionsParseFailed
  else if !createOk then some Err.fatalAssertion
  else none

/-- Creation of a missing target collection on the spot, shared by
Cloner::Fun::operator() (lines 113-130) and Cloner::_copyIndexes (lines
299-318): a writeConflictRetry whose body checks for interrupt, parses the
remote options and calls userCreateNS with createDefaultIndexes = true and
the given identity-index spec. Result: none models a retry loop that never
returns, some none means the collection is available, some (some e) an
aborting failure. -/
def ensureCollection (ns : String) (fromOptions : Nat) (idIndex : Option IdxSpec)
    (collExists : Bool) (iters : List WCIter) (optionsParseOk createOk : Bool) :
    Option (Option Err) × List Ev :=
  if collExists then (some none, [])
  else
    match writeConflictRetry (toAttempts iters (createBody optionsParseOk createOk)) with
    | none => (none, [])
    | some WCRes.interrupted => (some (some Err.interrupted), [Ev.checkInterrupt])
    | some (WCRes.completed (some e)) => (some (some e), [Ev.checkInterrupt])
    | some (WCRes.completed none) =>
        (some none, [Ev.checkInterrupt, Ev.createColl ns fromOptions true idIndex])

/-- One invocation of Cloner::Fun::operator() on a batch: the NotMaster
entry check (lines 104-107), openDb, creation of the target collection if
it is missing (lines 112-130, using from_options and from_id_index), then
the batch loop. -/
def funRun (cfg : CopyCfg) (ns : String) (fromOptions : Nat) (fromIdIndex : Option IdxSpec)
    (entry : FunEntryEnv) (st : FunState) (docs : List DocItem) : BatchRes × List Ev :=
  if cfg.replicated && !entry.canAcceptWrites then (BatchRes.abort Err.notMaster st, [])
  else
    match ensureCollection ns fromOptions fromIdIndex entry.collExists entry.createIters
        entry.optionsParseOk entry.createOk with
    | (none, evs) => (BatchRes.diverge st, evs)
    | (some (some e), evs) => (BatchRes.abort e st, evs)
    | (some none, evs) =>
      let r := runBatch cfg ns st docs
      (r.1, evs ++ r.2)

/-- External-world data for one Cloner::_copy call: the per-batch entry
environments zipped with the remote batches (the Fun object and its
numSeen counter persist across batches), and the role oracle at the final
PrimarySteppedDown check (line 266). -/
structure CollCopyEnv where
  batches : List (FunEntryEnv × List DocItem)
  finalCanAccept : Bool
  deriving DecidableEq, Repr

/-- Folds Fun invocations over the successive remote batches. -/
def runBatches (cfg : CopyCfg) (ns : String) (fromOptions : Nat)
    (fromIdIndex : Option IdxSpec) :
    FunState → List (FunEntryEnv × List DocItem) → BatchRes × List Ev
  | st, [] => (BatchRes.ok st, [])
  | st, (entry, docs) :: rest =>
    match funRun cfg ns fromOptions fromIdIndex entry st docs with
    | (BatchRes.ok st1, evs) =>
      let r := runBatches cfg ns fromOptions fromIdIndex st1 rest
      (r.1, evs ++ r.2)
    | (BatchRes.abort e st1, evs) => (BatchRes.abort e st1, evs)
    | (BatchRes.diverge st1, evs) => (BatchRes.diverge st1, evs)

/-- Cloner::_copy (lines 233-271): the exhaust query delivering batches to
the Fun callback, then the final role re-check. -/
def copyColl (cfg : CopyCfg) (ns : String) (fromOptions : Nat) (fromIdIndex : Option IdxSpec)
    (cenv : CollCopyEnv) : BatchRes × List Ev :=
  match runBatches cfg ns fromOptions fromIdIndex { numSeen := 0, inserted := [] }
      cenv.batches with
  | (BatchRes.ok st, evs) =>
    if cfg.replicated && !cenv.finalCanAccept then
      (BatchRes.abort Err.primarySteppedDown st, evs)
    else (BatchRes.ok st, evs)
  | (BatchRes.abort e st, evs) => (BatchRes.abort e st, evs)
  | (BatchRes.diverge st, evs) => (BatchRes.diverge st, evs)

/-- External-world state observed by one Cloner::_copyIndexes call: the
role oracle, the catalog lookup with the createCollection retry data, the
locally existing index specs (removeExistingIndexesNoChecks), the
two-phase protocol support flag, and the outcome of each index-build
stage (none means the stage succeeded, some c a failing status code). -/
structure CopyIdxEnv where
  canAcceptWrites : Bool
  collExists : Bool
  createIters : List WCIter
  optionsParseOk : Bool
  createOk : Bool
  existing : List IdxSpec
  twoPhase : Bool
  addEntryOk : Bool
  initErr : Option Nat
  insertErr : Option Nat
  checkErr : Option Nat
  commitErr : Option Nat
  deriving DecidableEq, Repr

/-- Result of one Cloner::_copyIndexes call. -/
inductive IdxRes
  | ok
  | err (e : Err)
  | diverge
  deriving DecidableEq, Repr

/-- IndexCatalog::removeExistingIndexesNoChecks: the remote specs not
already built locally (exact structural match). -/
def indexesToBuild (fromIndexes existing : List IdxSpec) : List IdxSpec :=
  fromIndexes.filter (fun s => !(existing.contains s))

/-- Commit stage of the index build (lines 376-399): MultiIndexBlock::commit
invoking the per-index callback (onCreateIndex when writes are replicated
and the two-phase protocol is unsupported) for each built spec, then the
on-commit callback (onCommitIndexBuild when writes are replicated and a
build UUID exists, i.e. the two-phase protocol is supported); a commit
failure triggers the abortOnExit guard. -/
def idxCommitPhase (replicated : Bool) (ns : String) (env : CopyIdxEnv)
    (toBuild : List IdxSpec) : Option Err × List Ev :=
  match env.commitErr with
  | some c => (some (Err.indexCommitFailed c), [Ev.abortIndexBuild ns])
  | none =>
    let perSpec :=
      if replicated && !env.twoPhase then toBuild.map (fun s => Ev.onCreateIndex ns s)
      else []
    let onCommit := if replicated && env.twoPhase then [Ev.onCommitIndexBuild ns] else []
    (none, perSpec ++ onCommit)

/-- Build stages of Cloner::_copyIndexes after the specs to build are
known (lines 332-400): init with the onInitFn (which, when writes are
replicated and a build UUID exists, persists the index-build entry and
emits startIndexBuild), then — with the abortOnExit guard installed only
after a successful init — insertAllDocumentsInCollection, checkConstraints
and the commit stage; every failure after init emits abortIndexBuild
before propagating, while the success path dismisses the guard. -/
def idxBuildPhase (replicated : Bool) (ns : String) (env : CopyIdxEnv)
    (toBuild : List IdxSpec) : Option Err × List Ev :=
  if replicated && env.twoPhase && !env.addEntryOk then
    (some Err.indexBuildEntryFailed, [Ev.addIndexBuildEntry ns])
  else
    let initEvs :=
      if replicated && env.twoPhase then [Ev.addIndexBuildEntry ns, Ev.startIndexBuild ns]
      else []
    match env.initErr with
    | some c => (some (Err.indexInitFailed c), initEvs)
    | none =>
      match env.insertErr with
      | some c => (some (Err.indexInsertFailed c), initEvs ++ [Ev.abortIndexBuild ns])
      | none =>
        match env.checkErr with
        | some c => (some (Err.indexCheckFailed c), initEvs ++ [Ev.abortIndexBuild ns])
        | none =>
          let r := idxCommitPhase replicated ns env toBuild
          (r.1, initEvs ++ r.2)

/-- Cloner::_copyIndexes (lines 273-401): the PrimarySteppedDown entry
check, the empty-spec-list early return, creation of a missing target
collection with the id-index spec resolved from the remote index list,
the already-built filter with its early return, then the build stages. -/
def copyIndexes (replicated : Bool) (ns : String) (fromOptions : Nat)
    (fromIndexes : List IdxSpec) (env : CopyIdxEnv) : IdxRes × List Ev :=
  if replicated && !env.canAcceptWrites then (IdxRes.err Err.primarySteppedDown, [])
  else if fromIndexes.isEmpty then (IdxRes.ok, [])
  else
    match ensureCollection ns fromOptions (getIdIndexSpec fromIndexes) env.collExists
        env.createIters env.optionsParseOk env.createOk with
    | (none, evs) => (IdxRes.diverge, evs)
    | (some (some e), evs) => (IdxRes.err e, evs)
    | (some none, evs) =>
      let toBuild := indexesToBuild fromIndexes env.existing
      if toBuild.isEmpty then (IdxRes.ok, evs)
      else
        match idxBuildPhase replicated ns env toBuild with
        | (some e, evs2) => (IdxRes.err e, evs ++ evs2)
        | (none, evs2) => (IdxRes.ok, evs ++ evs2)

/-- Local catalog of the target database: namespace to the stored
collection identity (the uuid recorded in the durable catalog options). -/
abbrev Catalog := List (String × Option Nat)

/-- NamespaceString(dbName, collectionName).ns(). -/
def fullNs (dbName collName : String) : String := dbName ++ "." ++ collName

/-- One entry of the creation plan (CreateCollectionParams): the name, the
remote options, the uuid from the info block of the remote descriptor,
the resolved identity-index spec, and the sharded-target flag. -/
structure PlanEntry where
  collectionName : String
  options : Nat
  infoUuid : Option Nat
  idIndexSpec : Option IdxSpec
  shardedColl : Bool
  deriving DecidableEq, Repr

/-- External-world data for Cloner::_createCollectionsForDb: the
movePrimary fail point, collection names rejected by userAllowedCreateNS,
collection names whose remote options fail CollectionOptions::parse, the
per-entry retry iteration schedules, and per-entry userCreateNS failures. -/
structure CreateDbEnv where
  failPointOn : Bool
  disallowed : List String
  badOptions : List String
  iters : List (String × List WCIter)
  createStatus : List (String × Nat)
  deriving DecidableEq, Repr

/-- Result of creator steps, carrying the catalog reached. -/
inductive CreateRes
  | ok (catalog : Catalog)
  | err (e : Err) (catalog : Catalog)
  | diverge (catalog : Catalog)
  deriving DecidableEq, Repr

/-- Processing of a single plan entry in Cloner::_createCollectionsForDb
(lines 453-516): userAllowedCreateNS, then a writeConflictRetry whose body
looks the namespace up in the catalog; an existing unsharded namespace
fails with NamespaceExists, an existing sharded namespace compares the
cloned uuid from the info block against the persisted one (equal is a
no-op success, unequal fails with InvalidOptions); a missing namespace is
created with the remote options (plus, for sharded targets, the remote
uuid), createDefaultIndexes = true and the resolved id-index spec. -/
def createOneBody (env : CreateDbEnv) (dbName : String) (catalog : Catalog)
    (p : PlanEntry) : Except Err (Catalog × List Ev) :=
  let ns := fullNs dbName p.collectionName
  match catalog.lookup ns with
  | some exUuid =>
    if !p.shardedColl then Except.error Err.namespaceExists
    else
      match p.infoUuid with
      | none => Except.error Err.uuidParseFailed
      | some u =>
        if exUuid = some u then Except.ok (catalog, [])
        else Except.error Err.invalidOptions
  | none =>
    if env.badOptions.contains p.collectionName then Except.error Err.optionsParseFailed
    else
      match (env.createStatus.lookup p.collectionName) with
      | some c => Except.error (Err.storage c)
      | none =>
        let newUuid := if p.shardedColl then p.infoUuid else none
        Except.ok ((ns, newUuid) :: catalog,
          [Ev.createColl ns p.options true p.idIndexSpec])

/-- Wrapper of the per-entry creation body in its writeConflictRetry. -/
def createOneCollection (env : CreateDbEnv) (dbName : String) (catalog : Catalog)
    (p : PlanEntry) : CreateRes × List Ev :=
  if env.disallowed.contains p.collectionName then (CreateRes.err Err.userNotAllowed catalog, [])
  else
    match writeConflictRetry
        (toAttempts ((env.iters.lookup p.collectionName).getD [WCIter.run])
          (createOneBody env dbName catalog p)) with
    | none => (CreateRes.diverge catalog, [Ev.checkInterrupt])
    | some WCRes.interrupted => (CreateRes.err Err.interrupted catalog, [Ev.checkInterrupt])
    | some (WCRes.completed (Except.error e)) =>
        (CreateRes.err e catalog, [Ev.checkInterrupt])
    | some (WCRes.completed (Except.ok (catalog1, evs))) =>
        (CreateRes.ok catalog1, Ev.checkInterrupt :: evs)

/-- Cloner::_createCollectionsForDb (lines 438-525): the plan entries in
list order, with the movePrimary fail point forcing failure after the
first entry, breaking early on the first failing creation. -/
def createCollectionsForDb (env : CreateDbEnv) (dbName : String) :
    Catalog → Nat → List PlanEntry → CreateRes × List Ev
  | catalog, _, [] => (CreateRes.ok catalog, [])
  | catalog, collCount, p :: rest =>
    if env.failPointOn && collCount > 0 then (CreateRes.err Err.commandFailed catalog, [])
    else
      match createOneCollection env dbName catalog p with
      | (CreateRes.ok catalog1, evs) =>
        let r := createCollectionsForDb env dbName catalog1 (collCount + 1) rest
        (r.1, evs ++ r.2)
      | (CreateRes.err e catalog1, evs) => (CreateRes.err e catalog1, evs)
      | (CreateRes.diverge catalog1, evs) => (CreateRes.diverge catalog1, evs)

/-- One remote collection descriptor as returned by getCollectionInfos:
its name (with the outcome of extracting it), whether an options object
is present and parses, the embedded idIndex spec if any, the uuid of the
info block, and the system-namespace classification of its namespace. -/
structure CollInfo where
  collName : String
  hasOptionsObj : Bool
  optionsParseOk : Bool
  options : Nat
  idIndex : Option IdxSpec
  infoUuid : Option Nat
  isSystem : Bool
  isLegalClientSystemNS : Bool
  nameOk : Bool
  deriving DecidableEq, Repr

/-- Cloner::_filterCollectionsForClone (lines 403-436): fails on an
options object that does not parse or a missing name field, drops
restricted system namespaces not on the client-creatable allow-list, and
keeps the rest in order. -/
def filterCollectionsForClone : List CollInfo → Except Err (List CollInfo)
  | [] => Except.ok []
  | c :: rest =>
    if c.hasOptionsObj && !c.optionsParseOk then Except.error Err.optionsParseFailed
    else if !c.nameOk then Except.error Err.nameExtractFailed
    else if c.isSystem && !c.isLegalClientSystemNS then filterCollectionsForClone rest
    else (filterCollectionsForClone rest).map (fun l => c :: l)

/-- Plan construction in Cloner::copyDb (lines 590-620): one
CreateCollectionParams per surviving descriptor, with the sharded flag set
iff the namespace appears in the caller-supplied sharded list, and the
id-index spec taken from the embedded idIndex or, when that is empty,
resolved from the fetched per-collection index list. -/
def buildPlan (dbName : String) (shardedColls : List String)
    (indexSpecs : List (String × List IdxSpec)) (kept : List CollInfo) : List PlanEntry :=
  kept.map fun c =>
    let resolved : Option IdxSpec :=
      match c.idIndex with
      | some s => some s
      | none => getIdIndexSpec ((indexSpecs.lookup c.collName).getD [])
    { collectionName := c.collName
      options := c.options
      infoUuid := c.infoUuid
      idIndexSpec := resolved
      shardedColl := shardedColls.contains (fullNs dbName c.collName) }

/-- External-world data for one Cloner::copyDb invocation. -/
structure CopyDbEnv where
  parsedHosts : Option (List Nat)
  selfHosts : List Nat
  connectOk : Bool
  internalAuthSet : Bool
  authOk : Bool
  collInfos : List CollInfo
  indexSpecs : List (String × List IdxSpec)
  replicated : Bool
  skipCorrupt : Bool
  canAcceptDb : Bool
  createEnv : CreateDbEnv
  copyEnvs : List (String × CollCopyEnv)
  idxEnvs : List (String × CopyIdxEnv)
  deriving DecidableEq, Repr

/-- Default environment for a collection the oracle says nothing about. -/
def defaultCollCopyEnv : CollCopyEnv := { batches := [], finalCanAccept := true }

/-- Default index-build environment for an unlisted collection. -/
def defaultIdxEnv : CopyIdxEnv :=
  { canAcceptWrites := true, collExists := true, createIters := [WCIter.run],
    optionsParseOk := true, createOk := true, existing := [], twoPhase := false,
    addEntryOk := true, initErr := none, insertErr := none, checkErr := none,
    commitErr := none }

/-- Result of a clone phase. -/
inductive PhaseRes
  | ok
  | err (e : Err)
  | diverge
  deriving DecidableEq, Repr

/-- Insertion into the std::set of cloned namespaces. -/
def insertSet (l : List String) (s : String) : List String :=
  if l.contains s then l else l ++ [s]

/-- Result of Cloner::copyDb, carrying the cloned-namespace out parameter. -/
inductive CopyDbRes
  | ok (cloned : List String)
  | err (e : Err) (cloned : List String)
  | diverge (cloned : List String)
  deriving DecidableEq, Repr

/-- The document-copy loop of Cloner::copyDb (lines 634-657): sharded
targets are skipped; each remaining namespace is added to the cloned set
and then copied via Cloner::_copy. -/
def copyPhase (env : CopyDbEnv) (dbName : String) :
    List PlanEntry → List String → PhaseRes × List String × List Ev
  | [], cloned => (PhaseRes.ok, cloned, [])
  | p :: rest, cloned =>
    if p.shardedColl then copyPhase env dbName rest cloned
    else
      let ns := fullNs dbName p.collectionName
      let cloned1 := insertSet cloned ns
      let cfg : CopyCfg := { replicated := env.replicated, skipCorrupt := env.skipCorrupt }
      let cenv := (env.copyEnvs.lookup p.collectionName).getD defaultCollCopyEnv
      match copyColl cfg ns p.options p.idIndexSpec cenv with
      | (BatchRes.ok _, evs) =>
        let r := copyPhase env dbName rest cloned1
        (r.1, r.2.1, Ev.addCloned ns :: Ev.beginCopy ns :: (evs ++ r.2.2))
      | (BatchRes.abort e _, evs) =>
        (PhaseRes.err e, cloned1, Ev.addCloned ns :: Ev.beginCopy ns :: evs)
      | (BatchRes.diverge _, evs) =>
        (PhaseRes.diverge, cloned1, Ev.addCloned ns :: Ev.beginCopy ns :: evs)

/-- The index-build loop of Cloner::copyDb (lines 660-674): every plan
entry, sharded or not, has its secondary indexes copied. -/
def indexPhase (env : CopyDbEnv) (dbName : String) : List PlanEntry → PhaseRes × List Ev
  | [] => (PhaseRes.ok, [])
  | p :: rest =>
    let ns := fullNs dbName p.collectionName
    let ienv := (env.idxEnvs.lookup p.collectionName).getD defaultIdxEnv
    match copyIndexes env.replicated ns p.options
        ((env.indexSpecs.lookup p.collectionName).getD []) ienv with
    | (IdxRes.ok, evs) =>
      let r := indexPhase env dbName rest
      (r.1, evs ++ r.2)
    | (IdxRes.err e, evs) => (PhaseRes.err e, evs)
    | (IdxRes.diverge, evs) => (PhaseRes.diverge, evs)

/-- The creation plan a copyDb invocation builds: filtering then plan
construction with id-index resolution. -/
def planOf (env : CopyDbEnv) (dbName : String) (shardedColls : List String) :
    Except Err (List PlanEntry) :=
  (filterCollectionsForClone env.collInfos).map (buildPlan dbName shardedColls env.indexSpecs)

/-- Cloner::copyDb (lines 527-677): connection-string parse, the
self-clone guard, connect and internal auth, clearing the cloned set,
catalog fetch and filtering, plan construction, the NotMaster check,
collection creation, the document-copy loop, and the index-build loop. -/
def copyDb (env : CopyDbEnv) (dbName : String) (shardedColls : List String)
    (catalog : Catalog) (cloned0 : List String) : CopyDbRes × Catalog × List Ev :=
  match env.parsedHosts with
  | none => (CopyDbRes.err Err.connStringParseFailed cloned0, catalog, [])
  | some hosts =>
    if hosts.any (fun h => env.selfHosts.contains h) then
      (CopyDbRes.err Err.illegalOperation cloned0, catalog, [])
    else if !env.connectOk then
      (CopyDbRes.err Err.hostUnreachable cloned0, catalog, [Ev.connectRemote])
    else if env.internalAuthSet && !env.authOk then
      (CopyDbRes.err Err.authFailed cloned0, catalog, [Ev.connectRemote])
    else
      match planOf env dbName shardedColls with
      | Except.error e => (CopyDbRes.err e [], catalog, [Ev.connectRemote])
      | Except.ok plan =>
        if env.replicated && !env.canAcceptDb then
          (CopyDbRes.err Err.notMaster [], catalog, [Ev.connectRemote])
        else
          match createCollectionsForDb env.createEnv dbName catalog 0 plan with
          | (CreateRes.err e catalog1, evs) =>
            (CopyDbRes.err e [], catalog1, Ev.connectRemote :: evs)
          | (CreateRes.diverge catalog1, evs) =>
            (CopyDbRes.diverge [], catalog1, Ev.connectRemote :: evs)
          | (CreateRes.ok catalog1, evs) =>
            match copyPhase env dbName plan [] with
            | (PhaseRes.err e, cloned, evs2) =>
              (CopyDbRes.err e cloned, catalog1, Ev.connectRemote :: (evs ++ evs2))
            | (PhaseRes.diverge, cloned, evs2) =>
              (CopyDbRes.diverge cloned, catalog1, Ev.connectRemote :: (evs ++ evs2))
            | (PhaseRes.ok, cloned, evs2) =>
              match indexPhase env dbName plan with
              | (PhaseRes.ok, evs3) =>
                (CopyDbRes.ok cloned, catalog1, Ev.connectRemote :: (evs ++ evs2 ++ evs3))
              | (PhaseRes.err e, evs3) =>
                (CopyDbRes.err e cloned, catalog1, Ev.connectRemote :: (evs ++ evs2 ++ evs3))
              | (PhaseRes.diverge, evs3) =>
                (CopyDbRes.diverge cloned, catalog1,
                  Ev.connectRemote :: (evs ++ evs2 ++ evs3))

/-! Helper lemmas shared by the claim theorems. -/

theorem writeConflictRetry_toAttempts {α : Type} (iters : List WCIter)
    (hni : WCIter.interrupted ∉ iters) (hr : WCIter.run ∈ iters) (body : α) :
    writeConflictRetry (toAttempts iters body) = some (WCRes.completed body) := by
  induction iters with
  | nil => cases hr
  | cons it rest ih =>
    cases it with
    | interrupted => exact absurd (List.mem_cons_self _ _) hni
    | conflict =>
      have hni2 : WCIter.interrupted ∉ rest := fun hm => hni (List.mem_cons_of_mem _ hm)
      have hr2 : WCIter.run ∈ rest := by
        rcases List.mem_cons.mp hr with h1 | h2
        · cases h1
        · exact h2
      simpa [toAttempts, writeConflictRetry] using ih hni2 hr2
    | run => simp [toAttempts, writeConflictRetry]

theorem commitDoc_mem_retryEvs (ns : String) (d : Nat)
    (l : List (WCAttempt InsertOutcome)) (h : Ev.commitDoc ns d ∈ retryEvs ns d l) :
    writeConflictRetry l = some (WCRes.completed InsertOutcome.ok) := by
  induction l with
  | nil => simp [retryEvs] at h
  | cons a rest ih =>
    cases a with
    | interrupted => simp [retryEvs] at h
    | conflict =>
      simp only [retryEvs, List.mem_cons] at h
      rcases h with h | h | h
      · cases h
      · cases h
      · simpa [writeConflictRetry] using ih h
    | done o =>
      cases o with
      | ok => simp [writeConflictRetry]
      | duplicateKey => simp [retryEvs] at h
      | err c => simp [retryEvs] at h

theorem releaseLock_not_mem_retryEvs (ns : String) (d : Nat)
    (l : List (WCAttempt InsertOutcome)) : Ev.releaseLock ∉ retryEvs ns d l := by
  induction l with
  | nil => simp [retryEvs]
  | cons a rest ih =>
    cases a with
    | interrupted => simp [retryEvs]
    | conflict => simp [retryEvs, ih]
    | done o => cases o <;> simp [retryEvs]

theorem commitDoc_not_mem_yieldCheck (r : Bool) (env : YieldEnv) (ns : String) (d : Nat) :
    Ev.commitDoc ns d ∉ (yieldCheck r env).2 := by
  rcases env with ⟨i, c, db, co⟩
  cases i <;> cases c <;> cases db <;> cases co <;> cases r <;> simp [yieldCheck]

theorem commitDoc_not_mem_yieldGate (cfg : CopyCfg) (st : FunState) (item : DocItem)
    (ns : String) (d : Nat) : Ev.commitDoc ns d ∉ (yieldGate cfg st item).2 := by
  unfold yieldGate
  by_cases hb : st.numSeen % 128 = 127
  · simpa [hb] using commitDoc_not_mem_yieldCheck cfg.replicated item.env ns d
  · simp [hb]

/-! Claim theorems. -/

/-- C5: every insertion transaction aborting with the storage engine's
internal write-conflict signal is silently retried with the same document
and no retry-count cap: any finite number of conflicts followed by a
completion yields that completion; a returned value is either the
cancellation outcome or a completion produced by the body itself, so a
write conflict is never surfaced to the caller; and a schedule of nothing
but conflicts never returns, so the loop is bounded only by the
cooperative-cancellation check. -/
theorem c5_write_conflict_retry_unbounded :
    (∀ (n : Nat) (a : InsertOutcome),
        writeConflictRetry (List.replicate n WCAttempt.conflict ++ [WCAttempt.done a]) =
          some (WCRes.completed a))
  ∧ (∀ (l : List (WCAttempt InsertOutcome)) (r : WCRes InsertOutcome),
        writeConflictRetry l = some r →
          r = WCRes.interrupted ∨ ∃ a, r = WCRes.completed a ∧ WCAttempt.done a ∈ l)
  ∧ (∀ (n : Nat),
        writeConflictRetry (α := InsertOutcome) (List.replicate n WCAttempt.conflict) =
          none) := by
  refine ⟨?_, ?_, ?_⟩
  · intro n a
    induction n with
    | zero => simp [writeConflictRetry]
    | succ k ih => simpa [List.replicate_succ, writeConflictRetry] using ih
  · intro l r h
    induction l with
    | nil => simp [writeConflictRetry] at h
    | cons a rest ih =>
      cases a with
      | interrupted =>
        simp only [writeConflictRetry, Option.some.injEq] at h
        exact Or.inl h.symm
      | conflict =>
        rcases ih (by simpa [writeConflictRetry] using h) with h1 | ⟨a, ha, hm⟩
        · exact Or.inl h1
        · exact Or.inr ⟨a, ha, List.mem_cons_of_mem _ hm⟩
      | done a =>
        simp only [writeConflictRetry, Option.some.injEq] at h
        exact Or.inr ⟨a, h.symm, List.mem_cons_self _ _⟩
  · intro n
    induction n with
    | zero => simp [writeConflictRetry]
    | succ k ih => simpa [List.replicate_succ, writeConflictRetry] using ih

/-- C5 witness: the second part of the theorem applied to a concrete
two-attempt schedule (one conflict, then a successful insert). -/
theorem c5_witness :
    WCRes.completed InsertOutcome.ok = WCRes.interrupted ∨
      ∃ a, WCRes.completed InsertOutcome.ok = WCRes.completed a ∧
        WCAttempt.done a ∈ [WCAttempt.conflict, WCAttempt.done InsertOutcome.ok] :=
  c5_write_conflict_retry_unbounded.2.1
    [WCAttempt.conflict, WCAttempt.done InsertOutcome.ok]
    (WCRes.completed InsertOutcome.ok) (by decide)

/-- C9: a copyDatabase invocation whose connection string resolves to the
local process fails with IllegalOperation before the remote connection is
attempted and before any local state is mutated: the result is the
IllegalOperation error, the catalog is returned unchanged, and the trace
is empty (in particular it contains no connectRemote action and no
creation or insertion action). -/
theorem c9_self_clone_guard (env : CopyDbEnv) (dbName : String)
    (shardedColls : List String) (catalog : Catalog) (cloned0 : List String)
    (hosts : List Nat) (hp : env.parsedHosts = some hosts)
    (hself : hosts.any (fun h => env.selfHosts.contains h) = true) :
    copyDb env dbName shardedColls catalog cloned0 =
      (CopyDbRes.err Err.illegalOperation cloned0, catalog, []) := by
  unfold copyDb
  rw [hp]
  dsimp only
  rw [hself]
  simp

/-- Concrete copyDb environment whose only source host is the local
process itself. -/
def selfCloneEnv : CopyDbEnv :=
  { parsedHosts := some [7]
    selfHosts := [7]
    connectOk := true
    internalAuthSet := false
    authOk := true
    collInfos := []
    indexSpecs := []
    replicated := false
    skipCorrupt := false
    canAcceptDb := true
    createEnv :=
      { failPointOn := false
        disallowed := []
        badOptions := []
        iters := []
        createStatus := [] }
    copyEnvs := []
    idxEnvs := [] }

/-- C9 witness: the guard theorem applied to the concrete self-host
environment. -/
theorem c9_witness :
    copyDb selfCloneEnv "db" [] [("db.x", some 5)] ["old.ns"] =
      (CopyDbRes.err Err.illegalOperation ["old.ns"], [("db.x", some 5)], []) :=
  c9_self_clone_guard selfCloneEnv "db" [] [("db.x", some 5)] ["old.ns"] [7] rfl (by decide)

/-- C2: for a plan entry whose namespace already exists in the local
catalog (and whose creation body actually runs), an unsharded entry fails
with the namespace conflict (NamespaceExists); a sharded entry whose uuid
from the remote info block equals the persisted identity succeeds as a
no-op, and fails with the identity conflict (InvalidOptions) otherwise; in
every case the catalog is returned unchanged and no creation action is
emitted, so the existing collection is neither modified nor re-created. -/
theorem c2_existing_namespace_policy (env : CreateDbEnv) (dbName : String)
    (catalog : Catalog) (p : PlanEntry) (exUuid : Option Nat)
    (hex : catalog.lookup (fullNs dbName p.collectionName) = some exUuid)
    (hallow : env.disallowed.contains p.collectionName = false)
    (hni : WCIter.interrupted ∉ (env.iters.lookup p.collectionName).getD [WCIter.run])
    (hr : WCIter.run ∈ (env.iters.lookup p.collectionName).getD [WCIter.run]) :
    (p.shardedColl = false →
        createOneCollection env dbName catalog p =
          (CreateRes.err Err.namespaceExists catalog, [Ev.checkInterrupt]))
  ∧ (∀ u, p.shardedColl = true → p.infoUuid = some u → exUuid = some u →
        createOneCollection env dbName catalog p =
          (CreateRes.ok catalog, [Ev.checkInterrupt]))
  ∧ (∀ u, p.shardedColl = true → p.infoUuid = some u → exUuid ≠ some u →
        createOneCollection env dbName catalog p =
          (CreateRes.err Err.invalidOptions catalog, [Ev.checkInterrupt])) := by
  have hretry := writeConflictRetry_toAttempts (α := Except Err (Catalog × List Ev))
    ((env.iters.lookup p.collectionName).getD [WCIter.run]) hni hr
  have hallow2 : p.collectionName ∉ env.disallowed := by simpa using hallow
  refine ⟨?_, ?_, ?_⟩
  · intro hsh
    simp [createOneCollection, createOneBody, hallow2, hex, hsh, hretry]
  · intro u hsh hu hequ
    simp [createOneCollection, createOneBody, hallow2, hex, hsh, hu, hequ, hretry]
  · intro u hsh hu hnequ
    simp [createOneCollection, createOneBody, hallow2, hex, hsh, hu, hnequ, hretry]

/-- Concrete creator environment with no fail point, no disallowed names
and a single-run retry schedule for every entry. -/
def plainCreateEnv : CreateDbEnv :=
  { failPointOn := false
    disallowed := []
    badOptions := []
    iters := []
    createStatus := [] }

/-- Concrete sharded plan entry whose namespace already exists locally. -/
def shardedEntrySample : PlanEntry :=
  { collectionName := "a"
    options := 0
    infoUuid := some 9
    idIndexSpec := none
    shardedColl := true }

/-- C2 witness: the policy theorem applied to a sharded entry over a
catalog already holding the same namespace with the matching identity. -/
theorem c2_witness :
    (shardedEntrySample.shardedColl = false →
        createOneCollection plainCreateEnv "db" [("db.a", some 9)] shardedEntrySample =
          (CreateRes.err Err.namespaceExists [("db.a", some 9)], [Ev.checkInterrupt]))
  ∧ (∀ u, shardedEntrySample.shardedColl = true →
        shardedEntrySample.infoUuid = some u → (some 9 : Option Nat) = some u →
        createOneCollection plainCreateEnv "db" [("db.a", some 9)] shardedEntrySample =
          (CreateRes.ok [("db.a", some 9)], [Ev.checkInterrupt]))
  ∧ (∀ u, shardedEntrySample.shardedColl = true →
        shardedEntrySample.infoUuid = some u → (some 9 : Option Nat) ≠ some u →
        createOneCollection plainCreateEnv "db" [("db.a", some 9)] shardedEntrySample =
          (CreateRes.err Err.invalidOptions [("db.a", some 9)], [Ev.checkInterrupt])) :=
  c2_existing_namespace_policy plainCreateEnv "db" [("db.a", some 9)]
    shardedEntrySample (some 9) (by decide) (by decide) (by decide) (by decide)

/-- C4: under a passing yield gate, an insert transaction whose retry loop
completes with a duplicate-key failure is treated as non-fatal success —
the loop continues with only the numSeen counter advanced, the set of
committed documents unchanged, and no commit action recorded for the
document — while a retry loop completing with any other insertion failure
aborts the whole collection clone carrying the underlying storage error. -/
theorem c4_duplicate_key_nonfatal (cfg : CopyCfg) (ns : String) (st : FunState)
    (item : DocItem) (rest : List DocItem)
    (hpass : (yieldGate cfg st item).1 = none)
    (hwf : item.doc.wellFormed = true) :
    (writeConflictRetry item.attempts =
        some (WCRes.completed InsertOutcome.duplicateKey) →
        (runBatch cfg ns st (item :: rest)).1 =
          (runBatch cfg ns { st with numSeen := st.numSeen + 1 } rest).1
      ∧ FunState.inserted { st with numSeen := st.numSeen + 1 } = st.inserted
      ∧ Ev.commitDoc ns item.doc.docId ∉ (processItem cfg ns st item).2)
  ∧ (∀ c, writeConflictRetry item.attempts =
        some (WCRes.completed (InsertOutcome.err c)) →
        (runBatch cfg ns st (item :: rest)).1 = BatchRes.abort (Err.storage c) st) := by
  rcases hyg : yieldGate cfg st item with ⟨og, yevs⟩
  have hog : og = none := by simpa [hyg] using hpass
  subst hog
  constructor
  · intro hdup
    refine ⟨?_, rfl, ?_⟩
    · simp [runBatch, processItem, hyg, hwf, hdup]
    · intro hmem
      simp only [processItem, hyg, hwf, Bool.not_true, Bool.false_eq_true, if_false,
        hdup, List.mem_append] at hmem
      rcases hmem with hmem | hmem
      · exact commitDoc_not_mem_yieldGate cfg st item ns item.doc.docId (hyg ▸ hmem)
      · have := commitDoc_mem_retryEvs ns item.doc.docId item.attempts hmem
        rw [hdup] at this
        cases this
  · intro c herr
    simp [runBatch, processItem, hyg, hwf, herr]

/-- Concrete batch element whose insert completes with a duplicate key. -/
def dupItem : DocItem :=
  { env :=
      { interrupted := false
        canAcceptWrites := true
        dbExists := true
        collExists := true }
    doc := { docId := 3, wellFormed := true }
    attempts := [WCAttempt.done InsertOutcome.duplicateKey] }

/-- C4 witness: the duplicate-key theorem applied to a concrete element
with an empty remaining batch. -/
theorem c4_witness :
    (writeConflictRetry dupItem.attempts =
        some (WCRes.completed InsertOutcome.duplicateKey) →
        (runBatch { replicated := true, skipCorrupt := false } "db.a"
            { numSeen := 0, inserted := [] } (dupItem :: [])).1 =
          (runBatch { replicated := true, skipCorrupt := false } "db.a"
            { numSeen := 0 + 1, inserted := [] } []).1
      ∧ FunState.inserted
          { numSeen := 0 + 1, inserted := ([] : List Nat) } = ([] : List Nat)
      ∧ Ev.commitDoc "db.a" dupItem.doc.docId ∉
          (processItem { replicated := true, skipCorrupt := false } "db.a"
            { numSeen := 0, inserted := [] } dupItem).2)
  ∧ (∀ c, writeConflictRetry dupItem.attempts =
        some (WCRes.completed (InsertOutcome.err c)) →
        (runBatch { replicated := true, skipCorrupt := false } "db.a"
            { numSeen := 0, inserted := [] } (dupItem :: [])).1 =
          BatchRes.abort (Err.storage c) { numSeen := 0, inserted := [] }) :=
  c4_duplicate_key_nonfatal { replicated := true, skipCorrupt := false } "db.a"
    { numSeen := 0, inserted := [] } dupItem [] (by decide) (by decide)

/-- C6: under a passing yield gate, a document that fails structural
validation is, in skip-corrupt mode, logged and skipped with the loop
proceeding in an unchanged state; with skip-corrupt off, the clone of the
namespace aborts with the CorruptData failure (28531), the state reached
is unchanged, and no document is committed by the aborted run. -/
theorem c6_corrupt_document_policy (cfg : CopyCfg) (ns : String) (st : FunState)
    (item : DocItem) (rest : List DocItem)
    (hpass : (yieldGate cfg st item).1 = none)
    (hbad : item.doc.wellFormed = false) :
    (cfg.skipCorrupt = true →
        (runBatch cfg ns st (item :: rest)).1 = (runBatch cfg ns st rest).1)
  ∧ (cfg.skipCorrupt = false →
        (runBatch cfg ns st (item :: rest)).1 = BatchRes.abort Err.corruptData st
      ∧ ∀ d, Ev.commitDoc ns d ∉ (runBatch cfg ns st (item :: rest)).2) := by
  rcases hyg : yieldGate cfg st item with ⟨og, yevs⟩
  have hog : og = none := by simpa [hyg] using hpass
  subst hog
  constructor
  · intro hskip
    simp [runBatch, processItem, hyg, hbad, hskip]
  · intro hstrict
    constructor
    · simp [runBatch, processItem, hyg, hbad, hstrict]
    · intro d hmem
      simp only [runBatch, processItem, hyg, hbad, hstrict, Bool.not_false,
        if_true, Bool.false_eq_true, if_false] at hmem
      exact commitDoc_not_mem_yieldGate cfg st item ns d (hyg ▸ hmem)

/-- Concrete corrupt batch element. -/
def corruptItem : DocItem :=
  { env :=
      { interrupted := false
        canAcceptWrites := true
        dbExists := true
        collExists := true }
    doc := { docId := 4, wellFormed := false }
    attempts := [WCAttempt.done InsertOutcome.ok] }

/-- C6 witness: the corrupt-document theorem applied to a concrete corrupt
element under the strict configuration. -/
theorem c6_witness :
    (({ replicated := false, skipCorrupt := false } : CopyCfg).skipCorrupt = true →
        (runBatch { replicated := false, skipCorrupt := false } "db.a"
            { numSeen := 5, inserted := [1] } (corruptItem :: [])).1 =
          (runBatch { replicated := false, skipCorrupt := false } "db.a"
            { numSeen := 5, inserted := [1] } []).1)
  ∧ (({ replicated := false, skipCorrupt := false } : CopyCfg).skipCorrupt = false →
        (runBatch { replicated := false, skipCorrupt := false } "db.a"
            { numSeen := 5, inserted := [1] } (corruptItem :: [])).1 =
          BatchRes.abort Err.corruptData { numSeen := 5, inserted := [1] }
      ∧ ∀ d, Ev.commitDoc "db.a" d ∉
          (runBatch { replicated := false, skipCorrupt := false } "db.a"
            { numSeen := 5, inserted := [1] } (corruptItem :: [])).2) :=
  c6_corrupt_document_policy { replicated := false, skipCorrupt := false } "db.a"
    { numSeen := 5, inserted := [1] } corruptItem [] (by decide) (by decide)

/-! Structural lemmas about processItem traces, used by the yield claim. -/

theorem yieldCheck_prefix (r : Bool) (env : YieldEnv) (hi : env.interrupted = false) :
    ∃ t, (yieldCheck r env).2 =
      Ev.checkInterrupt :: Ev.releaseLock :: Ev.acquireLock :: t := by
  rcases env with ⟨i, c, db, co⟩
  cases i with
  | true => cases hi
  | false => cases c <;> cases db <;> cases co <;> cases r <;> simp [yieldCheck]

theorem releaseLock_mem_yieldCheck (r : Bool) (env : YieldEnv) :
    Ev.releaseLock ∈ (yieldCheck r env).2 ↔ env.interrupted = false := by
  rcases env with ⟨i, c, db, co⟩
  cases i <;> cases c <;> cases db <;> cases co <;> cases r <;> simp [yieldCheck]

theorem processItem_evs_split (cfg : CopyCfg) (ns : String) (st : FunState)
    (item : DocItem) :
    ∃ t, (processItem cfg ns st item).2 = (yieldGate cfg st item).2 ++ t ∧
      Ev.releaseLock ∉ t := by
  rcases hyg : yieldGate cfg st item with ⟨og, yevs⟩
  cases og with
  | some e => exact ⟨[], by simp [processItem, hyg], by simp⟩
  | none =>
    cases hwf : item.doc.wellFormed with
    | false =>
      cases hsk : cfg.skipCorrupt with
      | true => exact ⟨[Ev.skipCorruptDoc ns item.doc.docId], by
          simp [processItem, hyg, hwf, hsk], by simp⟩
      | false => exact ⟨[], by simp [processItem, hyg, hwf, hsk], by simp⟩
    | true =>
      refine ⟨retryEvs ns item.doc.docId item.attempts, ?_,
        releaseLock_not_mem_retryEvs ns item.doc.docId item.attempts⟩
      rcases hw : writeConflictRetry item.attempts with _ | r
      · simp [processItem, hyg, hwf, hw]
      · cases r with
        | interrupted => simp [processItem, hyg, hwf, hw]
        | completed a => cases a <;> simp [processItem, hyg, hwf, hw]

theorem processItem_evs_wellFormed (cfg : CopyCfg) (ns : String) (st : FunState)
    (item : DocItem) (hpass : (yieldGate cfg st item).1 = none)
    (hwf : item.doc.wellFormed = true) :
    (processItem cfg ns st item).2 =
      (yieldGate cfg st item).2 ++ retryEvs ns item.doc.docId item.attempts := by
  rcases hyg : yieldGate cfg st item with ⟨og, yevs⟩
  have hog : og = none := by simpa [hyg] using hpass
  subst hog
  rcases hw : writeConflictRetry item.attempts with _ | r
  · simp [processItem, hyg, hwf, hw]
  · cases r with
    | interrupted => simp [processItem, hyg, hwf, hw]
    | completed a => cases a <;> simp [processItem, hyg, hwf, hw]

theorem retryEvs_head (ns : String) (d : Nat) (l : List (WCAttempt InsertOutcome))
    (hne : l ≠ []) : ∃ t, retryEvs ns d l = Ev.checkInterrupt :: t := by
  cases l with
  | nil => cases hne rfl
  | cons a rest =>
    cases a with
    | interrupted => exact ⟨[], rfl⟩
    | conflict => exact ⟨_, rfl⟩
    | done o => cases o <;> exact ⟨_, rfl⟩

/-- C3: the document copier releases the exclusive lock exactly at the
approximately-every-128-documents boundary (numSeen mod 128 = 127, with
the pre-release interrupt check honoured), and at such a boundary it
immediately re-acquires the lock and re-verifies, in order: the
replication role when writes are replicated (failing with the
primary-stepped-down RoleChanged error), database existence (failing with
DatabaseDropped) and collection existence (failing with
CollectionDropped); on a fully passing re-verification of a well-formed
document, the events after re-acquisition are exactly the verifications
followed by the cancellation check of the insert body, so cancellation is
re-checked before insertion resumes, and a cancellation at that point
aborts the clone. -/
theorem c3_yield_reverification (cfg : CopyCfg) (ns : String) (st : FunState)
    (item : DocItem) (res : StepRes) (evs : List Ev)
    (h : processItem cfg ns st item = (res, evs)) :
    ((Ev.releaseLock ∈ evs) ↔
        (st.numSeen % 128 = 127 ∧ item.env.interrupted = false))
  ∧ (st.numSeen % 128 = 127 →
      (item.env.interrupted = true →
          res = StepRes.abort Err.interrupted ∧ evs = [Ev.checkInterrupt])
    ∧ (item.env.interrupted = false →
        (∃ t, evs = Ev.checkInterrupt :: Ev.releaseLock :: Ev.acquireLock :: t)
      ∧ (cfg.replicated = true → item.env.canAcceptWrites = false →
          res = StepRes.abort Err.primarySteppedDown ∧
          evs = [Ev.checkInterrupt, Ev.releaseLock, Ev.acquireLock,
            Ev.verifyCanAcceptWrites])
      ∧ ((cfg.replicated = true → item.env.canAcceptWrites = true) →
          item.env.dbExists = false → res = StepRes.abort Err.databaseDropped)
      ∧ ((cfg.replicated = true → item.env.canAcceptWrites = true) →
          item.env.dbExists = true → item.env.collExists = false →
          res = StepRes.abort Err.collectionDropped)
      ∧ (item.env.canAcceptWrites = true → item.env.dbExists = true →
          item.env.collExists = true → item.doc.wellFormed = true →
          item.attempts ≠ [] →
          (∃ t, evs =
            [Ev.checkInterrupt, Ev.releaseLock, Ev.acquireLock] ++
            (if cfg.replicated then [Ev.verifyCanAcceptWrites] else []) ++
            [Ev.verifyDbExists, Ev.verifyCollExists, Ev.checkInterrupt] ++ t)
        ∧ (item.attempts.head? = some WCAttempt.interrupted →
            res = StepRes.abort Err.interrupted)))) := by
  have hres : (processItem cfg ns st item).1 = res := by rw [h]
  have hevs : (processItem cfg ns st item).2 = evs := by rw [h]
  subst hres hevs
  constructor
  · -- the lock is released exactly at the boundary
    obtain ⟨t, hsplit, hnot⟩ := processItem_evs_split cfg ns st item
    rw [hsplit]
    constructor
    · intro hmem
      rcases List.mem_append.mp hmem with hmem | hmem
      · by_cases hb : st.numSeen % 128 = 127
        · refine ⟨hb, ?_⟩
          have := (releaseLock_mem_yieldCheck cfg.replicated item.env).mp
            (by simpa [yieldGate, hb] using hmem)
          exact this
        · simp [yieldGate, hb] at hmem
      · exact absurd hmem hnot
    · rintro ⟨hb, hi⟩
      apply List.mem_append.mpr
      left
      simp only [yieldGate, hb, if_true]
      exact (releaseLock_mem_yieldCheck cfg.replicated item.env).mpr hi
  · intro hb
    refine ⟨?_, ?_⟩
    · intro hi
      constructor <;> simp [processItem, yieldGate, hb, yieldCheck, hi]
    · intro hi
      refine ⟨?_, ?_, ?_, ?_, ?_⟩
      · -- release followed immediately by re-acquisition
        obtain ⟨t, hsplit, _⟩ := processItem_evs_split cfg ns st item
        obtain ⟨t2, hpre⟩ := yieldCheck_prefix cfg.replicated item.env hi
        refine ⟨t2 ++ t, ?_⟩
        rw [hsplit]
        simp only [yieldGate, hb, if_true, hpre]
        simp
      · intro hrep hcan
        constructor <;> simp [processItem, yieldGate, hb, yieldCheck, hi, hrep, hcan]
      · intro hcan hdb
        cases hrep : cfg.replicated with
        | true => simp [processItem, yieldGate, hb, yieldCheck, hi, hrep,
            hcan hrep, hdb]
        | false => simp [processItem, yieldGate, hb, yieldCheck, hi, hrep, hdb]
      · intro hcan hdb hco
        cases hrep : cfg.replicated with
        | true => simp [processItem, yieldGate, hb, yieldCheck, hi, hrep,
            hcan hrep, hdb, hco]
        | false => simp [processItem, yieldGate, hb, yieldCheck, hi, hrep, hdb, hco]
      · intro hcan hdb hco hwf hne
        have hpass : (yieldGate cfg st item).1 = none := by
          cases hrep : cfg.replicated <;>
            simp [yieldGate, hb, yieldCheck, hi, hrep, hcan, hdb, hco]
        constructor
        · obtain ⟨t, hretry⟩ := retryEvs_head ns item.doc.docId item.attempts hne
          rw [processItem_evs_wellFormed cfg ns st item hpass hwf, hretry]
          cases hrep : cfg.replicated <;>
            simp [yieldGate, hb, yieldCheck, hi, hrep, hcan, hdb, hco]
        · intro hhead
          have hw : writeConflictRetry item.attempts = some WCRes.interrupted := by
            rcases hl : item.attempts with _ | ⟨a, rest⟩
            · rw [hl] at hhead
              cases hhead
            · rw [hl] at hhead
              have ha : a = WCAttempt.interrupted := by simpa using hhead
              subst ha
              simp [writeConflictRetry]
          rcases hyg2 : yieldGate cfg st item with ⟨og, yevs⟩
          have hog : og = none := by simpa [hyg2] using hpass
          subst hog
          simp [processItem, hyg2, hwf, hw]

/-- Concrete copier state sitting exactly at the yield boundary. -/
def yieldSt : FunState := { numSeen := 127, inserted := [] }

/-- Concrete batch element with a fully passing yield environment. -/
def yieldItem : DocItem :=
  { env :=
      { interrupted := false
        canAcceptWrites := true
        dbExists := true
        collExists := true }
    doc := { docId := 9, wellFormed := true }
    attempts := [WCAttempt.done InsertOutcome.ok] }

/-- Configuration of the concrete yield witness. -/
def yieldCfg : CopyCfg := { replicated := true, skipCorrupt := false }

/-- C3 witness: the yield re-verification theorem applied to a concrete
boundary state with a passing environment. -/
theorem c3_witness :
    ((Ev.releaseLock ∈ (processItem yieldCfg "db.a" yieldSt yieldItem).2) ↔
        (yieldSt.numSeen % 128 = 127 ∧ yieldItem.env.interrupted = false))
  ∧ (yieldSt.numSeen % 128 = 127 →
      (yieldItem.env.interrupted = true →
          (processItem yieldCfg "db.a" yieldSt yieldItem).1 =
            StepRes.abort Err.interrupted ∧
          (processItem yieldCfg "db.a" yieldSt yieldItem).2 = [Ev.checkInterrupt])
    ∧ (yieldItem.env.interrupted = false →
        (∃ t, (processItem yieldCfg "db.a" yieldSt yieldItem).2 =
          Ev.checkInterrupt :: Ev.releaseLock :: Ev.acquireLock :: t)
      ∧ (yieldCfg.replicated = true → yieldItem.env.canAcceptWrites = false →
          (processItem yieldCfg "db.a" yieldSt yieldItem).1 =
            StepRes.abort Err.primarySteppedDown ∧
          (processItem yieldCfg "db.a" yieldSt yieldItem).2 =
            [Ev.checkInterrupt, Ev.releaseLock, Ev.acquireLock,
              Ev.verifyCanAcceptWrites])
      ∧ ((yieldCfg.replicated = true → yieldItem.env.canAcceptWrites = true) →
          yieldItem.env.dbExists = false →
          (processItem yieldCfg "db.a" yieldSt yieldItem).1 =
            StepRes.abort Err.databaseDropped)
      ∧ ((yieldCfg.replicated = true → yieldItem.env.canAcceptWrites = true) →
          yieldItem.env.dbExists = true → yieldItem.env.collExists = false →
          (processItem yieldCfg "db.a" yieldSt yieldItem).1 =
            StepRes.abort Err.collectionDropped)
      ∧ (yieldItem.env.canAcceptWrites = true → yieldItem.env.dbExists = true →
          yieldItem.env.collExists = true → yieldItem.doc.wellFormed = true →
          yieldItem.attempts ≠ [] →
          (∃ t, (processItem yieldCfg "db.a" yieldSt yieldItem).2 =
            [Ev.checkInterrupt, Ev.releaseLock, Ev.acquireLock] ++
            (if yieldCfg.replicated then [Ev.verifyCanAcceptWrites] else []) ++
            [Ev.verifyDbExists, Ev.verifyCollExists, Ev.checkInterrupt] ++ t)
        ∧ (yieldItem.attempts.head? = some WCAttempt.interrupted →
            (processItem yieldCfg "db.a" yieldSt yieldItem).1 =
              StepRes.abort Err.interrupted)))) :=
  c3_yield_reverification yieldCfg "db.a" yieldSt yieldItem
    (processItem yieldCfg "db.a" yieldSt yieldItem).1
    (processItem yieldCfg "db.a" yieldSt yieldItem).2 rfl

/-- Classifier for per-index create-index replication-log actions. -/
def isCreateIndexEv : Ev → Bool
  | Ev.onCreateIndex _ _ => true
  | _ => false

/-- Classifier for commit-index-build replication-log actions. -/
def isCommitBuildEv : Ev → Bool
  | Ev.onCommitIndexBuild _ => true
  | _ => false

theorem ensure_no_oplog (ns : String) (fromOptions : Nat) (idIdx : Option IdxSpec)
    (collE : Bool) (iters : List WCIter) (po co : Bool) :
    (ensureCollection ns fromOptions idIdx collE iters po co).2.filter isCreateIndexEv = []
  ∧ (ensureCollection ns fromOptions idIdx collE iters po co).2.filter isCommitBuildEv
      = []
  ∧ Ev.abortIndexBuild ns ∉ (ensureCollection ns fromOptions idIdx collE iters po co).2 := by
  unfold ensureCollection
  cases collE with
  | true => simp
  | false =>
    rcases hw : writeConflictRetry (toAttempts iters (createBody po co)) with _ | r
    · simp
    · cases r with
      | interrupted => simp [isCreateIndexEv, isCommitBuildEv]
      | completed oe =>
        cases oe with
        | none => simp [isCreateIndexEv, isCommitBuildEv]
        | some e => simp [isCreateIndexEv, isCommitBuildEv]

/-- C7 counterexample: a fully successful index build over a concrete
environment. The build commits (result ok) and the explicit abort/cleanup
action never runs — the guard is dismissed on the success path — refuting
the claim that the cleanup also runs (as a no-op) on success. -/
theorem c7_counterexample :
    (copyIndexes false "db.a" 0 [{ specName := "x_1", body := 1 }] defaultIdxEnv).1 =
      IdxRes.ok
  ∧ Ev.abortIndexBuild "db.a" ∉
      (copyIndexes false "db.a" 0 [{ specName := "x_1", body := 1 }] defaultIdxEnv).2 := by
  decide

/-- C7 (amended): after a successful build initialization, the explicit
abort/cleanup of the index build runs on every failing exit path — a
failure during document insertion, constraint checking or commit emits the
abort action and then propagates the failure — but on success the guard is
dismissed after the commit and the cleanup does not run. -/
theorem c7_cleanup_amended (replicated : Bool) (ns : String) (fromOptions : Nat)
    (fromIndexes : List IdxSpec) (env : CopyIdxEnv)
    (hfe : fromIndexes.isEmpty = false)
    (hcoll : env.collExists = true)
    (hacc : replicated = true → env.canAcceptWrites = true)
    (hfb : (indexesToBuild fromIndexes env.existing).isEmpty = false)
    (hadd : replicated = true → env.twoPhase = true → env.addEntryOk = true)
    (hinit : env.initErr = none) :
    (∀ c, env.insertErr = some c →
        (copyIndexes replicated ns fromOptions fromIndexes env).1 =
          IdxRes.err (Err.indexInsertFailed c)
      ∧ Ev.abortIndexBuild ns ∈
          (copyIndexes replicated ns fromOptions fromIndexes env).2)
  ∧ (env.insertErr = none → ∀ c, env.checkErr = some c →
        (copyIndexes replicated ns fromOptions fromIndexes env).1 =
          IdxRes.err (Err.indexCheckFailed c)
      ∧ Ev.abortIndexBuild ns ∈
          (copyIndexes replicated ns fromOptions fromIndexes env).2)
  ∧ (env.insertErr = none → env.checkErr = none → ∀ c, env.commitErr = some c →
        (copyIndexes replicated ns fromOptions fromIndexes env).1 =
          IdxRes.err (Err.indexCommitFailed c)
      ∧ Ev.abortIndexBuild ns ∈
          (copyIndexes replicated ns fromOptions fromIndexes env).2)
  ∧ (env.insertErr = none → env.checkErr = none → env.commitErr = none →
        (copyIndexes replicated ns fromOptions fromIndexes env).1 = IdxRes.ok
      ∧ Ev.abortIndexBuild ns ∉
          (copyIndexes replicated ns fromOptions fromIndexes env).2) := by
  have hens : ensureCollection ns fromOptions (getIdIndexSpec fromIndexes)
      env.collExists env.createIters env.optionsParseOk env.createOk = (some none, []) := by
    simp [ensureCollection, hcoll]
  refine ⟨?_, ?_, ?_, ?_⟩
  · intro c hc
    cases hrep : replicated with
    | false =>
      constructor <;>
        simp [copyIndexes, hens, hfe, hfb, idxBuildPhase, idxCommitPhase, hinit, hc]
    | true =>
      have hcw := hacc hrep
      cases htp : env.twoPhase with
      | false =>
        constructor <;>
          simp [copyIndexes, hens, hfe, hfb, idxBuildPhase, idxCommitPhase, hinit,
            hc, hcw, htp]
      | true =>
        have hae := hadd hrep htp
        constructor <;>
          simp [copyIndexes, hens, hfe, hfb, idxBuildPhase, idxCommitPhase, hinit,
            hc, hcw, htp, hae]
  · intro hi c hc
    cases hrep : replicated with
    | false =>
      constructor <;>
        simp [copyIndexes, hens, hfe, hfb, idxBuildPhase, idxCommitPhase, hinit,
          hi, hc]
    | true =>
      have hcw := hacc hrep
      cases htp : env.twoPhase with
      | false =>
        constructor <;>
          simp [copyIndexes, hens, hfe, hfb, idxBuildPhase, idxCommitPhase, hinit,
            hi, hc, hcw, htp]
      | true =>
        have hae := hadd hrep htp
        constructor <;>
          simp [copyIndexes, hens, hfe, hfb, idxBuildPhase, idxCommitPhase, hinit,
            hi, hc, hcw, htp, hae]
  · intro hi hch c hc
    cases hrep : replicated with
    | false =>
      constructor <;>
        simp [copyIndexes, hens, hfe, hfb, idxBuildPhase, idxCommitPhase, hinit,
          hi, hch, hc]
    | true =>
      have hcw := hacc hrep
      cases htp : env.twoPhase with
      | false =>
        constructor <;>
          simp [copyIndexes, hens, hfe, hfb, idxBuildPhase, idxCommitPhase, hinit,
            hi, hch, hc, hcw, htp]
      | true =>
        have hae := hadd hrep htp
        constructor <;>
          simp [copyIndexes, hens, hfe, hfb, idxBuildPhase, idxCommitPhase, hinit,
            hi, hch, hc, hcw, htp, hae]
  · intro hi hch hc
    cases hrep : replicated with
    | false =>
      constructor <;>
        simp [copyIndexes, hens, hfe, hfb, idxBuildPhase, idxCommitPhase, hinit,
          hi, hch, hc]
    | true =>
      have hcw := hacc hrep
      cases htp : env.twoPhase with
      | false =>
        constructor <;>
          simp [copyIndexes, hens, hfe, hfb, idxBuildPhase, idxCommitPhase, hinit,
            hi, hch, hc, hcw, htp]
      | true =>
        have hae := hadd hrep htp
        constructor <;>
          simp [copyIndexes, hens, hfe, hfb, idxBuildPhase, idxCommitPhase, hinit,
            hi, hch, hc, hcw, htp, hae]

/-- Concrete index-build environment whose insertion stage fails. -/
def failingInsertIdxEnv : CopyIdxEnv :=
  { canAcceptWrites := true
    collExists := true
    createIters := [WCIter.run]
    optionsParseOk := true
    createOk := true
    existing := []
    twoPhase := false
    addEntryOk := true
    initErr := none
    insertErr := some 5
    checkErr := none
    commitErr := none }

/-- C7 witness: the amended cleanup theorem applied to a concrete
environment whose insertion stage fails with code 5. -/
theorem c7_witness :
    (∀ c, failingInsertIdxEnv.insertErr = some c →
        (copyIndexes true "db.a" 0 [{ specName := "x_1", body := 1 }]
            failingInsertIdxEnv).1 = IdxRes.err (Err.indexInsertFailed c)
      ∧ Ev.abortIndexBuild "db.a" ∈
          (copyIndexes true "db.a" 0 [{ specName := "x_1", body := 1 }]
            failingInsertIdxEnv).2)
  ∧ (failingInsertIdxEnv.insertErr = none → ∀ c,
        failingInsertIdxEnv.checkErr = some c →
        (copyIndexes true "db.a" 0 [{ specName := "x_1", body := 1 }]
            failingInsertIdxEnv).1 = IdxRes.err (Err.indexCheckFailed c)
      ∧ Ev.abortIndexBuild "db.a" ∈
          (copyIndexes true "db.a" 0 [{ specName := "x_1", body := 1 }]
            failingInsertIdxEnv).2)
  ∧ (failingInsertIdxEnv.insertErr = none → failingInsertIdxEnv.checkErr = none →
        ∀ c, failingInsertIdxEnv.commitErr = some c →
        (copyIndexes true "db.a" 0 [{ specName := "x_1", body := 1 }]
            failingInsertIdxEnv).1 = IdxRes.err (Err.indexCommitFailed c)
      ∧ Ev.abortIndexBuild "db.a" ∈
          (copyIndexes true "db.a" 0 [{ specName := "x_1", body := 1 }]
            failingInsertIdxEnv).2)
  ∧ (failingInsertIdxEnv.insertErr = none → failingInsertIdxEnv.checkErr = none →
        failingInsertIdxEnv.commitErr = none →
        (copyIndexes true "db.a" 0 [{ specName := "x_1", body := 1 }]
            failingInsertIdxEnv).1 = IdxRes.ok
      ∧ Ev.abortIndexBuild "db.a" ∉
          (copyIndexes true "db.a" 0 [{ specName := "x_1", body := 1 }]
            failingInsertIdxEnv).2) :=
  c7_cleanup_amended true "db.a" 0 [{ specName := "x_1", body := 1 }]
    failingInsertIdxEnv (by decide) (by decide) (by decide) (by decide)
    (by decide) (by decide)

/-- C8: on a successful index-build commit that actually built indexes,
the replication-log emission is exclusive: when writes are replicated and
the two-phase protocol is unsupported, the commit emits exactly one
create-index log action per built spec and no commit-index-build action;
when the two-phase protocol is supported, it emits exactly one
commit-index-build action referencing the build and no create-index
action; when writes are not replicated, it emits neither. -/
theorem c8_oplog_exclusive (replicated : Bool) (ns : String) (fromOptions : Nat)
    (fromIndexes : List IdxSpec) (env : CopyIdxEnv)
    (hok : (copyIndexes replicated ns fromOptions fromIndexes env).1 = IdxRes.ok)
    (htb : indexesToBuild fromIndexes env.existing ≠ []) :
    (replicated = true → env.twoPhase = false →
        (copyIndexes replicated ns fromOptions fromIndexes env).2.filter
            isCreateIndexEv =
          (indexesToBuild fromIndexes env.existing).map (fun s => Ev.onCreateIndex ns s)
      ∧ (copyIndexes replicated ns fromOptions fromIndexes env).2.filter
          isCommitBuildEv = [])
  ∧ (replicated = true → env.twoPhase = true →
        (copyIndexes replicated ns fromOptions fromIndexes env).2.filter
          isCommitBuildEv = [Ev.onCommitIndexBuild ns]
      ∧ (copyIndexes replicated ns fromOptions fromIndexes env).2.filter
          isCreateIndexEv = [])
  ∧ (replicated = false →
        (copyIndexes replicated ns fromOptions fromIndexes env).2.filter
          isCreateIndexEv = []
      ∧ (copyIndexes replicated ns fromOptions fromIndexes env).2.filter
          isCommitBuildEv = []) := by
  have hfe : fromIndexes.isEmpty = false := by
    cases hl : fromIndexes with
    | nil => rw [hl] at htb; simp [indexesToBuild] at htb
    | cons a l => simp
  have hfb : (indexesToBuild fromIndexes env.existing).isEmpty = false := by
    cases hl : indexesToBuild fromIndexes env.existing with
    | nil => exact absurd hl htb
    | cons a l => simp
  have hnoop := ensure_no_oplog ns fromOptions (getIdIndexSpec fromIndexes)
    env.collExists env.createIters env.optionsParseOk env.createOk
  rcases hens : ensureCollection ns fromOptions (getIdIndexSpec fromIndexes)
      env.collExists env.createIters env.optionsParseOk env.createOk with ⟨oe, evs0⟩
  rw [hens] at hnoop
  by_cases hacc : (replicated && !env.canAcceptWrites) = true
  · rw [copyIndexes, if_pos hacc] at hok
    cases hok
  · cases oe with
    | none =>
      rw [copyIndexes, if_neg hacc, if_neg (by simp [hfe]), hens] at hok
      cases hok
    | some oe2 =>
      cases oe2 with
      | some e =>
        rw [copyIndexes, if_neg hacc, if_neg (by simp [hfe]), hens] at hok
        cases hok
      | none =>
        rcases hbp : idxBuildPhase replicated ns env
            (indexesToBuild fromIndexes env.existing) with ⟨obe, evs2⟩
        cases obe with
        | some e =>
          rw [copyIndexes, if_neg hacc, if_neg (by simp [hfe]), hens] at hok
          dsimp only at hok
          rw [if_neg (by simp [hfb]), hbp] at hok
          cases hok
        | none =>
          have hevs : (copyIndexes replicated ns fromOptions fromIndexes env).2 =
              evs0 ++ evs2 := by
            rw [copyIndexes, if_neg hacc, if_neg (by simp [hfe]), hens]
            dsimp only
            rw [if_neg (by simp [hfb]), hbp]
          refine ⟨?_, ?_, ?_⟩
          · intro hrep htp
            subst hrep
            rw [idxBuildPhase, if_neg (by simp [htp])] at hbp
            simp only [htp, Bool.and_false, Bool.false_eq_true, if_false] at hbp
            rcases hie : env.initErr with _ | c <;> rw [hie] at hbp
            swap
            · cases hbp
            rcases hse : env.insertErr with _ | c <;> rw [hse] at hbp
            swap
            · cases hbp
            rcases hce : env.checkErr with _ | c <;> rw [hce] at hbp
            swap
            · cases hbp
            rw [idxCommitPhase] at hbp
            rcases hme : env.commitErr with _ | c <;> rw [hme] at hbp
            swap
            · cases hbp
            simp only [htp, Bool.not_false, Bool.and_true, if_true,
              Bool.and_false, Bool.false_eq_true, if_false, List.append_nil,
              List.nil_append, Prod.mk.injEq, true_and] at hbp
            have hevs2 : evs2 = (indexesToBuild fromIndexes env.existing).map
                (fun s => Ev.onCreateIndex ns s) := hbp.symm
            rw [hevs, hevs2]
            constructor
            · rw [List.filter_append, hnoop.1, List.nil_append]
              rw [List.filter_map]
              have : isCreateIndexEv ∘ (fun s => Ev.onCreateIndex ns s) =
                  fun _ => true := by
                funext s
                simp [isCreateIndexEv, Function.comp]
              rw [this, List.filter_true]
            · rw [List.filter_append, hnoop.2.1, List.nil_append]
              rw [List.filter_map]
              have : isCommitBuildEv ∘ (fun s => Ev.onCreateIndex ns s) =
                  fun _ => false := by
                funext s
                simp [isCommitBuildEv, Function.comp]
              rw [this, List.filter_false, List.map_nil]
          · intro hrep htp
            subst hrep
            rcases hae : env.addEntryOk with _ | _
            · rw [idxBuildPhase, if_pos (by simp [htp, hae])] at hbp
              cases hbp
            · rw [idxBuildPhase, if_neg (by simp [htp, hae])] at hbp
              simp only [htp, Bool.and_true, if_true] at hbp
              rcases hie : env.initErr with _ | c <;> rw [hie] at hbp
              swap
              · cases hbp
              rcases hse : env.insertErr with _ | c <;> rw [hse] at hbp
              swap
              · cases hbp
              rcases hce : env.checkErr with _ | c <;> rw [hce] at hbp
              swap
              · cases hbp
              rw [idxCommitPhase] at hbp
              rcases hme : env.commitErr with _ | c <;> rw [hme] at hbp
              swap
              · cases hbp
              simp only [htp, Bool.not_true, Bool.and_false, Bool.false_eq_true,
                if_false, Bool.and_true, if_true, List.nil_append,
                Prod.mk.injEq, true_and] at hbp
              have hevs2 : evs2 = [Ev.addIndexBuildEntry ns, Ev.startIndexBuild ns,
                  Ev.onCommitIndexBuild ns] := by
                rw [← hbp]
                simp
              rw [hevs, hevs2]
              constructor
              · rw [List.filter_append, hnoop.2.1, List.nil_append]
                simp [List.filter, isCommitBuildEv]
              · rw [List.filter_append, hnoop.1, List.nil_append]
                simp [List.filter, isCreateIndexEv]
          · intro hrep
            subst hrep
            rw [idxBuildPhase, if_neg (by simp)] at hbp
            simp only [Bool.false_and, Bool.false_eq_true, if_false] at hbp
            rcases hie : env.initErr with _ | c <;> rw [hie] at hbp
            swap
            · cases hbp
            rcases hse : env.insertErr with _ | c <;> rw [hse] at hbp
            swap
            · cases hbp
            rcases hce : env.checkErr with _ | c <;> rw [hce] at hbp
            swap
            · cases hbp
            rw [idxCommitPhase] at hbp
            rcases hme : env.commitErr with _ | c <;> rw [hme] at hbp
            swap
            · cases hbp
            simp only [Bool.false_and, Bool.false_eq_true, if_false,
              List.append_nil, List.nil_append, Prod.mk.injEq, true_and] at hbp
            have hevs2 : evs2 = [] := hbp.symm
            rw [hevs, hevs2, List.append_nil]
            exact ⟨hnoop.1, hnoop.2.1⟩

/-- C8 witness: the exclusivity theorem applied to a concrete replicated
single-phase build of one index. -/
theorem c8_witness :
    (true = true → defaultIdxEnv.twoPhase = false →
        (copyIndexes true "db.a" 0 [{ specName := "x_1", body := 1 }]
            defaultIdxEnv).2.filter isCreateIndexEv =
          (indexesToBuild [{ specName := "x_1", body := 1 }]
            defaultIdxEnv.existing).map (fun s => Ev.onCreateIndex "db.a" s)
      ∧ (copyIndexes true "db.a" 0 [{ specName := "x_1", body := 1 }]
            defaultIdxEnv).2.filter isCommitBuildEv = [])
  ∧ (true = true → defaultIdxEnv.twoPhase = true →
        (copyIndexes true "db.a" 0 [{ specName := "x_1", body := 1 }]
            defaultIdxEnv).2.filter isCommitBuildEv = [Ev.onCommitIndexBuild "db.a"]
      ∧ (copyIndexes true "db.a" 0 [{ specName := "x_1", body := 1 }]
            defaultIdxEnv).2.filter isCreateIndexEv = [])
  ∧ (true = false →
        (copyIndexes true "db.a" 0 [{ specName := "x_1", body := 1 }]
            defaultIdxEnv).2.filter isCreateIndexEv = []
      ∧ (copyIndexes true "db.a" 0 [{ specName := "x_1", body := 1 }]
            defaultIdxEnv).2.filter isCommitBuildEv = []) :=
  c8_oplog_exclusive true "db.a" 0 [{ specName := "x_1", body := 1 }] defaultIdxEnv
    (by decide) (by decide)

theorem idxBuildPhase_no_collDropped (replicated : Bool) (ns : String)
    (env : CopyIdxEnv) (tb : List IdxSpec) (e : Err)
    (h : (idxBuildPhase replicated ns env tb).1 = some e) :
    e ≠ Err.collectionDropped := by
  unfold idxBuildPhase at h
  by_cases hg : (replicated && env.twoPhase && !env.addEntryOk) = true
  · rw [if_pos hg] at h
    simp only [Option.some.injEq] at h
    subst h
    simp
  · rw [if_neg hg] at h
    rcases hie : env.initErr with _ | c
    · rw [hie] at h
      dsimp only at h
      rcases hse : env.insertErr with _ | c
      · rw [hse] at h
        dsimp only at h
        rcases hce : env.checkErr with _ | c
        · rw [hce] at h
          dsimp only at h
          rw [idxCommitPhase] at h
          rcases hme : env.commitErr with _ | c
          · rw [hme] at h
            dsimp only at h
            simp at h
          · rw [hme] at h
            dsimp only at h
            simp only [Option.some.injEq] at h
            subst h
            simp
        · rw [hce] at h
          dsimp only at h
          simp only [Option.some.injEq] at h
          subst h
          simp
      · rw [hse] at h
        dsimp only at h
        simp only [Option.some.injEq] at h
        subst h
        simp
    · rw [hie] at h
      dsimp only at h
      simp only [Option.some.injEq] at h
      subst h
      simp

/-- C10: a missing target collection at phase entry is created on the spot
rather than failing. In the document copier, a missing collection at the
start of a batch is created from the remote options with default-index
creation enabled and the resolved identity-index spec, after which the
batch proceeds exactly as over an existing collection; in the index
builder, a missing collection is likewise created with the id-index spec
resolved from the remote index list, and the builder never fails with
CollectionDropped; the CollectionDropped failure of the copier can arise
only at a yield boundary (numSeen mod 128 = 127), never at phase entry. -/
theorem c10_create_missing_collection (cfg : CopyCfg) (ns : String)
    (fromOptions : Nat) (fromIdIndex : Option IdxSpec) (entry : FunEntryEnv)
    (st : FunState) (docs : List DocItem)
    (replicated2 : Bool) (ns2 : String) (fromOptions2 : Nat)
    (fromIndexes : List IdxSpec) (ienv : CopyIdxEnv)
    (hacc : cfg.replicated = true → entry.canAcceptWrites = true)
    (hmiss : entry.collExists = false)
    (hni : WCIter.interrupted ∉ entry.createIters)
    (hr : WCIter.run ∈ entry.createIters)
    (hpo : entry.optionsParseOk = true) (hcr : entry.createOk = true)
    (hacc2 : replicated2 = true → ienv.canAcceptWrites = true)
    (hmiss2 : ienv.collExists = false)
    (hni2 : WCIter.interrupted ∉ ienv.createIters)
    (hr2 : WCIter.run ∈ ienv.createIters)
    (hpo2 : ienv.optionsParseOk = true) (hcr2 : ienv.createOk = true)
    (hfe : fromIndexes.isEmpty = false) :
    (funRun cfg ns fromOptions fromIdIndex entry st docs =
        ((runBatch cfg ns st docs).1,
          Ev.checkInterrupt :: Ev.createColl ns fromOptions true fromIdIndex ::
            (runBatch cfg ns st docs).2))
  ∧ (∃ tail, (copyIndexes replicated2 ns2 fromOptions2 fromIndexes ienv).2 =
        Ev.checkInterrupt ::
          Ev.createColl ns2 fromOptions2 true (getIdIndexSpec fromIndexes) :: tail)
  ∧ ((copyIndexes replicated2 ns2 fromOptions2 fromIndexes ienv).1 ≠
        IdxRes.err Err.collectionDropped)
  ∧ (∀ (cfg3 : CopyCfg) (ns3 : String) (st3 : FunState) (item3 : DocItem),
        (processItem cfg3 ns3 st3 item3).1 = StepRes.abort Err.collectionDropped →
        st3.numSeen % 128 = 127) := by
  have hens : ensureCollection ns fromOptions fromIdIndex entry.collExists
      entry.createIters entry.optionsParseOk entry.createOk =
      (some none, [Ev.checkInterrupt,
        Ev.createColl ns fromOptions true fromIdIndex]) := by
    have hbody : createBody entry.optionsParseOk entry.createOk = none := by
      simp [createBody, hpo, hcr]
    simp [ensureCollection, hmiss,
      writeConflictRetry_toAttempts entry.createIters hni hr, hbody]
  have hens2 : ensureCollection ns2 fromOptions2 (getIdIndexSpec fromIndexes)
      ienv.collExists ienv.createIters ienv.optionsParseOk ienv.createOk =
      (some none, [Ev.checkInterrupt,
        Ev.createColl ns2 fromOptions2 true (getIdIndexSpec fromIndexes)]) := by
    have hbody : createBody ienv.optionsParseOk ienv.createOk = none := by
      simp [createBody, hpo2, hcr2]
    simp [ensureCollection, hmiss2,
      writeConflictRetry_toAttempts ienv.createIters hni2 hr2, hbody]
  have hgate2 : (replicated2 && !ienv.canAcceptWrites) = false := by
    cases hrep : replicated2 with
    | false => simp
    | true => simp [hacc2 hrep]
  refine ⟨?_, ?_, ?_, ?_⟩
  · have hgate : (cfg.replicated && !entry.canAcceptWrites) = false := by
      cases hrep : cfg.replicated with
      | false => simp
      | true => simp [hacc hrep]
    simp [funRun, hgate, hens]
  · rw [copyIndexes, if_neg (by simp [hgate2]), if_neg (by simp [hfe]), hens2]
    dsimp only
    cases htb : (indexesToBuild fromIndexes ienv.existing).isEmpty with
    | true =>
      rw [if_pos (by simp [htb])]
      exact ⟨[], rfl⟩
    | false =>
      rw [if_neg (by simp [htb])]
      rcases hbp : idxBuildPhase replicated2 ns2 ienv
          (indexesToBuild fromIndexes ienv.existing) with ⟨obe, evs2⟩
      cases obe with
      | some e => exact ⟨evs2, rfl⟩
      | none => exact ⟨evs2, rfl⟩
  · rw [copyIndexes, if_neg (by simp [hgate2]), if_neg (by simp [hfe]), hens2]
    dsimp only
    cases htb : (indexesToBuild fromIndexes ienv.existing).isEmpty with
    | true =>
      rw [if_pos (by simp [htb])]
      simp
    | false =>
      rw [if_neg (by simp [htb])]
      rcases hbp : idxBuildPhase replicated2 ns2 ienv
          (indexesToBuild fromIndexes ienv.existing) with ⟨obe, evs2⟩
      cases obe with
      | some e =>
        have hne := idxBuildPhase_no_collDropped replicated2 ns2 ienv
          (indexesToBuild fromIndexes ienv.existing) e (by rw [hbp])
        simp [hne]
      | none => simp
  · intro cfg3 ns3 st3 item3 h
    by_contra hnb
    have hyg : yieldGate cfg3 st3 item3 = (none, []) := by simp [yieldGate, hnb]
    cases hwf : item3.doc.wellFormed with
    | false =>
      cases hsk : cfg3.skipCorrupt with
      | true => simp [processItem, hyg, hwf, hsk] at h
      | false => simp [processItem, hyg, hwf, hsk] at h
    | true =>
      rcases hw : writeConflictRetry item3.attempts with _ | r
      · simp [processItem, hyg, hwf, hw] at h
      · cases r with
        | interrupted => simp [processItem, hyg, hwf, hw] at h
        | completed a =>
          cases a <;> simp [processItem, hyg, hwf, hw] at h

/-- Concrete copier entry environment with a missing target collection. -/
def missingCollEntry : FunEntryEnv :=
  { canAcceptWrites := true
    collExists := false
    createIters := [WCIter.run]
    optionsParseOk := true
    createOk := true }

/-- Concrete index-build environment with a missing target collection. -/
def missingCollIdxEnv : CopyIdxEnv :=
  { canAcceptWrites := true
    collExists := false
    createIters := [WCIter.run]
    optionsParseOk := true
    createOk := true
    existing := []
    twoPhase := false
    addEntryOk := true
    initErr := none
    insertErr := none
    checkErr := none
    commitErr := none }

/-- C10 witness: the create-on-missing theorem applied to concrete
missing-collection environments for both phase entries. -/
theorem c10_witness :
    (funRun { replicated := false, skipCorrupt := false } "db.a" 2 none
        missingCollEntry { numSeen := 0, inserted := [] } [] =
        ((runBatch { replicated := false, skipCorrupt := false } "db.a"
            { numSeen := 0, inserted := [] } []).1,
          Ev.checkInterrupt :: Ev.createColl "db.a" 2 true none ::
            (runBatch { replicated := false, skipCorrupt := false } "db.a"
              { numSeen := 0, inserted := [] } []).2))
  ∧ (∃ tail, (copyIndexes false "db.b" 1 [{ specName := "_id_", body := 0 }]
        missingCollIdxEnv).2 =
        Ev.checkInterrupt ::
          Ev.createColl "db.b" 1 true
            (getIdIndexSpec [{ specName := "_id_", body := 0 }]) :: tail)
  ∧ ((copyIndexes false "db.b" 1 [{ specName := "_id_", body := 0 }]
        missingCollIdxEnv).1 ≠ IdxRes.err Err.collectionDropped)
  ∧ (∀ (cfg3 : CopyCfg) (ns3 : String) (st3 : FunState) (item3 : DocItem),
        (processItem cfg3 ns3 st3 item3).1 = StepRes.abort Err.collectionDropped →
        st3.numSeen % 128 = 127) :=
  c10_create_missing_collection { replicated := false, skipCorrupt := false }
    "db.a" 2 none missingCollEntry { numSeen := 0, inserted := [] } []
    false "db.b" 1 [{ specName := "_id_", body := 0 }] missingCollIdxEnv
    (by decide) (by decide) (by decide) (by decide) (by decide) (by decide)
    (by decide) (by decide) (by decide) (by decide) (by decide) (by decide)
    (by decide)

/-! Lemmas tracking cloned-set contents and commit actions through copyDb. -/

theorem insertSet_mem (l : List String) (s ns : String) :
    ns ∈ insertSet l s ↔ ns ∈ l ∨ ns = s := by
  unfold insertSet
  by_cases h : l.contains s = true
  · rw [if_pos h]
    have hs : s ∈ l := by simpa using h
    constructor
    · exact Or.inl
    · rintro (h1 | rfl)
      · exact h1
      · exact hs
  · rw [if_neg h]
    simp [List.mem_append]

theorem commitDoc_not_mem_ensure (ns : String) (fromOptions : Nat)
    (idIdx : Option IdxSpec) (collE : Bool) (iters : List WCIter) (po co : Bool)
    (ns2 : String) (d : Nat) :
    Ev.commitDoc ns2 d ∉ (ensureCollection ns fromOptions idIdx collE iters po co).2 := by
  unfold ensureCollection
  cases collE with
  | true => simp
  | false =>
    rcases hw : writeConflictRetry (toAttempts iters (createBody po co)) with _ | r
    · simp
    · cases r with
      | interrupted => simp
      | completed oe => cases oe <;> simp

theorem commitDoc_retryEvs_ns (ns ns2 : String) (d d2 : Nat)
    (l : List (WCAttempt InsertOutcome))
    (h : Ev.commitDoc ns2 d2 ∈ retryEvs ns d l) : ns2 = ns := by
  induction l with
  | nil => simp [retryEvs] at h
  | cons a rest ih =>
    cases a with
    | interrupted => simp [retryEvs] at h
    | conflict =>
      simp only [retryEvs, List.mem_cons] at h
      rcases h with h | h | h
      · cases h
      · cases h
      · exact ih h
    | done o =>
      cases o with
      | ok =>
        simp only [retryEvs, List.mem_cons] at h
        rcases h with h | h | h | h
        · cases h
        · cases h
        · cases h
          rfl
        · cases h
      | duplicateKey => simp [retryEvs] at h
      | err c => simp [retryEvs] at h

theorem commitDoc_processItem_ns (cfg : CopyCfg) (ns : String) (st : FunState)
    (item : DocItem) (ns2 : String) (d : Nat)
    (h : Ev.commitDoc ns2 d ∈ (processItem cfg ns st item).2) : ns2 = ns := by
  rcases hyg : yieldGate cfg st item with ⟨og, yevs⟩
  have hyno : Ev.commitDoc ns2 d ∉ yevs := by
    have := commitDoc_not_mem_yieldGate cfg st item ns2 d
    rw [hyg] at this
    exact this
  cases og with
  | some e =>
    rw [processItem, hyg] at h
    exact absurd h hyno
  | none =>
    rw [processItem, hyg] at h
    dsimp only at h
    cases hwf : item.doc.wellFormed with
    | false =>
      rw [hwf] at h
      cases hsk : cfg.skipCorrupt with
      | true =>
        rw [hsk] at h
        simp only [Bool.not_false, if_true, List.mem_append, List.mem_singleton] at h
        rcases h with h | h
        · exact absurd h hyno
        · cases h
      | false =>
        rw [hsk] at h
        simp only [Bool.not_false, if_true, Bool.false_eq_true, if_false] at h
        exact absurd h hyno
    | true =>
      rw [hwf] at h
      have hm : Ev.commitDoc ns2 d ∈
          yevs ++ retryEvs ns item.doc.docId item.attempts := by
        rcases hw : writeConflictRetry item.attempts with _ | r
        · rw [hw] at h
          simpa using h
        · cases r with
          | interrupted =>
            rw [hw] at h
            simpa using h
          | completed a =>
            cases a <;> rw [hw] at h <;> simpa using h
      rcases List.mem_append.mp hm with h2 | h2
      · exact absurd h2 hyno
      · exact commitDoc_retryEvs_ns ns ns2 item.doc.docId d item.attempts h2

theorem commitDoc_runBatch_ns (cfg : CopyCfg) (ns : String) (st : FunState)
    (docs : List DocItem) (ns2 : String) (d : Nat)
    (h : Ev.commitDoc ns2 d ∈ (runBatch cfg ns st docs).2) : ns2 = ns := by
  induction docs generalizing st with
  | nil => simp [runBatch] at h
  | cons item rest ih =>
    rcases hpi : processItem cfg ns st item with ⟨sres, evs⟩
    have hevs : Ev.commitDoc ns2 d ∈ evs → ns2 = ns := by
      intro hm
      exact commitDoc_processItem_ns cfg ns st item ns2 d (by rw [hpi]; exact hm)
    cases sres with
    | abort e =>
      rw [runBatch, hpi] at h
      exact hevs h
    | diverge =>
      rw [runBatch, hpi] at h
      exact hevs h
    | cont st1 =>
      rw [runBatch, hpi] at h
      dsimp only at h
      rcases List.mem_append.mp h with h2 | h2
      · exact hevs h2
      · exact ih st1 h2

theorem commitDoc_funRun_ns (cfg : CopyCfg) (ns : String) (fromOptions : Nat)
    (fromIdIndex : Option IdxSpec) (entry : FunEntryEnv) (st : FunState)
    (docs : List DocItem) (ns2 : String) (d : Nat)
    (h : Ev.commitDoc ns2 d ∈ (funRun cfg ns fromOptions fromIdIndex entry st docs).2) :
    ns2 = ns := by
  rw [funRun] at h
  by_cases hg : (cfg.replicated && !entry.canAcceptWrites) = true
  · rw [if_pos hg] at h
    simp at h
  · rw [if_neg hg] at h
    rcases hens : ensureCollection ns fromOptions fromIdIndex entry.collExists
        entry.createIters entry.optionsParseOk entry.createOk with ⟨oe, evs0⟩
    have hno : Ev.commitDoc ns2 d ∉ evs0 := by
      have := commitDoc_not_mem_ensure ns fromOptions fromIdIndex entry.collExists
        entry.createIters entry.optionsParseOk entry.createOk ns2 d
      rw [hens] at this
      exact this
    rw [hens] at h
    cases oe with
    | none => exact absurd h hno
    | some oe2 =>
      cases oe2 with
      | some e => exact absurd h hno
      | none =>
        dsimp only at h
        rcases List.mem_append.mp h with h2 | h2
        · exact absurd h2 hno
        · exact commitDoc_runBatch_ns cfg ns st docs ns2 d h2

theorem commitDoc_runBatches_ns (cfg : CopyCfg) (ns : String) (fromOptions : Nat)
    (fromIdIndex : Option IdxSpec) (st : FunState)
    (batches : List (FunEntryEnv × List DocItem)) (ns2 : String) (d : Nat)
    (h : Ev.commitDoc ns2 d ∈
      (runBatches cfg ns fromOptions fromIdIndex st batches).2) : ns2 = ns := by
  induction batches generalizing st with
  | nil => simp [runBatches] at h
  | cons b rest ih =>
    rcases b with ⟨entry, docs⟩
    rcases hfr : funRun cfg ns fromOptions fromIdIndex entry st docs with ⟨bres, evs⟩
    have hevs : Ev.commitDoc ns2 d ∈ evs → ns2 = ns := by
      intro hm
      exact commitDoc_funRun_ns cfg ns fromOptions fromIdIndex entry st docs ns2 d
        (by rw [hfr]; exact hm)
    cases bres with
    | ok st1 =>
      rw [runBatches, hfr] at h
      dsimp only at h
      rcases List.mem_append.mp h with h2 | h2
      · exact hevs h2
      · exact ih st1 h2
    | abort e st1 =>
      rw [runBatches, hfr] at h
      exact hevs h
    | diverge st1 =>
      rw [runBatches, hfr] at h
      exact hevs h

theorem commitDoc_copyColl_ns (cfg : CopyCfg) (ns : String) (fromOptions : Nat)
    (fromIdIndex : Option IdxSpec) (cenv : CollCopyEnv) (ns2 : String) (d : Nat)
    (h : Ev.commitDoc ns2 d ∈ (copyColl cfg ns fromOptions fromIdIndex cenv).2) :
    ns2 = ns := by
  rcases hrb : runBatches cfg ns fromOptions fromIdIndex
      { numSeen := 0, inserted := [] } cenv.batches with ⟨bres, evs⟩
  rw [copyColl, hrb] at h
  have hevs : Ev.commitDoc ns2 d ∈ evs → ns2 = ns := by
    intro hm
    exact commitDoc_runBatches_ns cfg ns fromOptions fromIdIndex
      { numSeen := 0, inserted := [] } cenv.batches ns2 d (by rw [hrb]; exact hm)
  cases bres with
  | ok st =>
    dsimp only at h
    by_cases hf : (cfg.replicated && !cenv.finalCanAccept) = true
    · rw [if_pos hf] at h
      exact hevs h
    · rw [if_neg hf] at h
      exact hevs h
  | abort e st => exact hevs h
  | diverge st => exact hevs h

theorem writeConflictRetry_toAttempts_completed {α : Type} (iters : List WCIter)
    (body a : α)
    (h : writeConflictRetry (toAttempts iters body) = some (WCRes.completed a)) :
    a = body := by
  induction iters with
  | nil => simp [toAttempts, writeConflictRetry] at h
  | cons it rest ih =>
    cases it with
    | interrupted => simp [toAttempts, writeConflictRetry] at h
    | conflict => exact ih (by simpa [toAttempts, writeConflictRetry] using h)
    | run =>
      have : WCRes.completed (α := α) body = WCRes.completed a := by
        simpa [toAttempts, writeConflictRetry] using h
      cases this
      rfl

theorem createOneBody_ok_evs (env : CreateDbEnv) (dbName : String) (catalog : Catalog)
    (p : PlanEntry) (cat1 : Catalog) (evs1 : List Ev)
    (h : createOneBody env dbName catalog p = Except.ok (cat1, evs1)) :
    evs1 = [] ∨ evs1 = [Ev.createColl (fullNs dbName p.collectionName) p.options true
      p.idIndexSpec] := by
  rw [createOneBody] at h
  dsimp only at h
  rcases hlk : catalog.lookup (fullNs dbName p.collectionName) with _ | exU <;>
      rw [hlk] at h
  · by_cases hb : env.badOptions.contains p.collectionName = true
    · rw [if_pos hb] at h
      cases h
    · rw [if_neg hb] at h
      rcases hcs : env.createStatus.lookup p.collectionName with _ | c <;>
          rw [hcs] at h
      · dsimp only at h
        cases h
        exact Or.inr rfl
      · cases h
  · dsimp only at h
    cases hsh : p.shardedColl with
    | false =>
      rw [hsh] at h
      simp only [Bool.not_false, if_true] at h
      cases h
    | true =>
      rw [hsh] at h
      simp only [Bool.not_true, Bool.false_eq_true, if_false] at h
      rcases hu : p.infoUuid with _ | u <;> rw [hu] at h <;> dsimp only at h
      · cases h
      · by_cases hequ : exU = some u
        · rw [if_pos hequ] at h
          cases h
          exact Or.inl rfl
        · rw [if_neg hequ] at h
          cases h

theorem commitDoc_not_mem_createOne (env : CreateDbEnv) (dbName : String)
    (catalog : Catalog) (p : PlanEntry) (ns2 : String) (d : Nat) :
    Ev.commitDoc ns2 d ∉ (createOneCollection env dbName catalog p).2 := by
  rw [createOneCollection]
  by_cases hd : env.disallowed.contains p.collectionName = true
  · rw [if_pos hd]
    simp
  · rw [if_neg hd]
    rcases hw : writeConflictRetry (toAttempts
        ((env.iters.lookup p.collectionName).getD [WCIter.run])
        (createOneBody env dbName catalog p)) with _ | r
    · simp
    · cases r with
      | interrupted => simp
      | completed b =>
        cases b with
        | error e => simp
        | ok pr =>
          rcases pr with ⟨cat1, evs1⟩
          have hbody := writeConflictRetry_toAttempts_completed _ _ _ hw
          have hevs1 := createOneBody_ok_evs env dbName catalog p cat1 evs1 hbody.symm
          dsimp only
          intro hm
          rcases List.mem_cons.mp hm with h1 | h1
          · cases h1
          · rcases hevs1 with h2 | h2 <;> rw [h2] at h1 <;> simp at h1

theorem commitDoc_not_mem_creator (env : CreateDbEnv) (dbName : String)
    (catalog : Catalog) (n : Nat) (plan : List PlanEntry) (ns2 : String) (d : Nat) :
    Ev.commitDoc ns2 d ∉ (createCollectionsForDb env dbName catalog n plan).2 := by
  induction plan generalizing catalog n with
  | nil => simp [createCollectionsForDb]
  | cons p rest ih =>
    rw [createCollectionsForDb]
    by_cases hfp : (env.failPointOn && decide (n > 0)) = true
    · rw [if_pos hfp]
      simp
    · rw [if_neg hfp]
      rcases hco : createOneCollection env dbName catalog p with ⟨cres, evs⟩
      have hevs : Ev.commitDoc ns2 d ∉ evs := by
        have := commitDoc_not_mem_createOne env dbName catalog p ns2 d
        rw [hco] at this
        exact this
      cases cres with
      | ok cat1 =>
        dsimp only
        intro hm
        rcases List.mem_append.mp hm with h1 | h1
        · exact hevs h1
        · exact ih cat1 (n + 1) h1
      | err e cat1 => exact hevs
      | diverge cat1 => exact hevs

theorem commitDoc_not_mem_idxBuildPhase (replicated : Bool) (ns : String)
    (env : CopyIdxEnv) (tb : List IdxSpec) (ns2 : String) (d : Nat) :
    Ev.commitDoc ns2 d ∉ (idxBuildPhase replicated ns env tb).2 := by
  rw [idxBuildPhase]
  by_cases hg : (replicated && env.twoPhase && !env.addEntryOk) = true
  · rw [if_pos hg]
    simp
  · rw [if_neg hg]
    rcases env.initErr with _ | c
    · dsimp only
      rcases env.insertErr with _ | c
      · dsimp only
        rcases env.checkErr with _ | c
        · dsimp only
          rw [idxCommitPhase]
          rcases env.commitErr with _ | c
          · dsimp only
            intro hm
            rcases List.mem_append.mp hm with h1 | h1
            · by_cases h3 : (replicated && env.twoPhase) = true
              · rw [if_pos h3] at h1
                simp at h1
              · rw [if_neg h3] at h1
                simp at h1
            · rcases List.mem_append.mp h1 with h2 | h2
              · by_cases h3 : (replicated && !env.twoPhase) = true
                · rw [if_pos h3] at h2
                  rcases List.mem_map.mp h2 with ⟨s, _, h4⟩
                  cases h4
                · rw [if_neg h3] at h2
                  simp at h2
              · by_cases h3 : (replicated && env.twoPhase) = true
                · rw [if_pos h3] at h2
                  simp at h2
                · rw [if_neg h3] at h2
                  simp at h2
          · dsimp only
            intro hm
            rcases List.mem_append.mp hm with h1 | h1
            · by_cases h3 : (replicated && env.twoPhase) = true
              · rw [if_pos h3] at h1
                simp at h1
              · rw [if_neg h3] at h1
                simp at h1
            · simp at h1
        · dsimp only
          intro hm
          rcases List.mem_append.mp hm with h1 | h1
          · by_cases h3 : (replicated && env.twoPhase) = true
            · rw [if_pos h3] at h1
              simp at h1
            · rw [if_neg h3] at h1
              simp at h1
          · simp at h1
      · dsimp only
        intro hm
        rcases List.mem_append.mp hm with h1 | h1
        · by_cases h3 : (replicated && env.twoPhase) = true
          · rw [if_pos h3] at h1
            simp at h1
          · rw [if_neg h3] at h1
            simp at h1
        · simp at h1
    · dsimp only
      by_cases h3 : (replicated && env.twoPhase) = true
      · rw [if_pos h3]
        simp
      · rw [if_neg h3]
        simp

theorem commitDoc_not_mem_copyIndexes (replicated : Bool) (ns : String)
    (fromOptions : Nat) (fromIndexes : List IdxSpec) (env : CopyIdxEnv)
    (ns2 : String) (d : Nat) :
    Ev.commitDoc ns2 d ∉ (copyIndexes replicated ns fromOptions fromIndexes env).2 := by
  rw [copyIndexes]
  by_cases hg : (replicated && !env.canAcceptWrites) = true
  · rw [if_pos hg]
    simp
  · rw [if_neg hg]
    by_cases hfe : fromIndexes.isEmpty = true
    · rw [if_pos hfe]
      simp
    · rw [if_neg hfe]
      rcases hens : ensureCollection ns fromOptions (getIdIndexSpec fromIndexes)
          env.collExists env.createIters env.optionsParseOk env.createOk with ⟨oe, evs0⟩
      have hno : Ev.commitDoc ns2 d ∉ evs0 := by
        have := commitDoc_not_mem_ensure ns fromOptions (getIdIndexSpec fromIndexes)
          env.collExists env.createIters env.optionsParseOk env.createOk ns2 d
        rw [hens] at this
        exact this
      cases oe with
      | none => exact hno
      | some oe2 =>
        cases oe2 with
        | some e => exact hno
        | none =>
          dsimp only
          by_cases htb : (indexesToBuild fromIndexes env.existing).isEmpty = true
          · rw [if_pos htb]
            exact hno
          · rw [if_neg htb]
            rcases hbp : idxBuildPhase replicated ns env
                (indexesToBuild fromIndexes env.existing) with ⟨obe, evs2⟩
            have hno2 : Ev.commitDoc ns2 d ∉ evs2 := by
              have := commitDoc_not_mem_idxBuildPhase replicated ns env
                (indexesToBuild fromIndexes env.existing) ns2 d
              rw [hbp] at this
              exact this
            cases obe with
            | some e =>
              dsimp only
              intro hm
              rcases List.mem_append.mp hm with h1 | h1
              · exact hno h1
              · exact hno2 h1
            | none =>
              dsimp only
              intro hm
              rcases List.mem_append.mp hm with h1 | h1
              · exact hno h1
              · exact hno2 h1

theorem commitDoc_not_mem_indexPhase (env : CopyDbEnv) (dbName : String)
    (plan : List PlanEntry) (ns2 : String) (d : Nat) :
    Ev.commitDoc ns2 d ∉ (indexPhase env dbName plan).2 := by
  induction plan with
  | nil => simp [indexPhase]
  | cons p rest ih =>
    rw [indexPhase]
    rcases hci : copyIndexes env.replicated (fullNs dbName p.collectionName)
        p.options ((env.indexSpecs.lookup p.collectionName).getD [])
        ((env.idxEnvs.lookup p.collectionName).getD defaultIdxEnv) with ⟨ires, evs⟩
    have hno : Ev.commitDoc ns2 d ∉ evs := by
      have := commitDoc_not_mem_copyIndexes env.replicated
        (fullNs dbName p.collectionName) p.options
        ((env.indexSpecs.lookup p.collectionName).getD [])
        ((env.idxEnvs.lookup p.collectionName).getD defaultIdxEnv) ns2 d
      rw [hci] at this
      exact this
    cases ires with
    | ok =>
      dsimp only
      intro hm
      rcases List.mem_append.mp hm with h1 | h1
      · exact hno h1
      · exact ih h1
    | err e => exact hno
    | diverge => exact hno

theorem copyPhase_commit_src (env : CopyDbEnv) (dbName : String)
    (plan : List PlanEntry) (cloned : List String) (ns2 : String) (d : Nat)
    (h : Ev.commitDoc ns2 d ∈ (copyPhase env dbName plan cloned).2.2) :
    ∃ p, p ∈ plan ∧ p.shardedColl = false ∧ ns2 = fullNs dbName p.collectionName := by
  induction plan generalizing cloned with
  | nil => simp [copyPhase] at h
  | cons p rest ih =>
    rw [copyPhase] at h
    cases hsh : p.shardedColl with
    | true =>
      rw [hsh] at h
      dsimp only at h
      obtain ⟨q, hq, hqs, hqn⟩ := ih cloned h
      exact ⟨q, List.mem_cons_of_mem _ hq, hqs, hqn⟩
    | false =>
      rw [hsh] at h
      dsimp only at h
      rcases hcc : copyColl { replicated := env.replicated, skipCorrupt := env.skipCorrupt }
          (fullNs dbName p.collectionName) p.options p.idIndexSpec
          ((env.copyEnvs.lookup p.collectionName).getD defaultCollCopyEnv) with ⟨bres, evs⟩
      have hfromColl : Ev.commitDoc ns2 d ∈ evs → ns2 = fullNs dbName p.collectionName := by
        intro hm
        exact commitDoc_copyColl_ns _ _ _ _ _ _ _ (by rw [hcc]; exact hm)
      rw [hcc] at h
      cases bres with
      | ok st =>
        dsimp only at h
        rcases List.mem_cons.mp h with h1 | h1
        · cases h1
        rcases List.mem_cons.mp h1 with h2 | h2
        · cases h2
        rcases List.mem_append.mp h2 with h3 | h3
        · exact ⟨p, List.mem_cons_self _ _, hsh, hfromColl h3⟩
        · obtain ⟨q, hq, hqs, hqn⟩ := ih _ h3
          exact ⟨q, List.mem_cons_of_mem _ hq, hqs, hqn⟩
      | abort e st =>
        dsimp only at h
        rcases List.mem_cons.mp h with h1 | h1
        · cases h1
        rcases List.mem_cons.mp h1 with h2 | h2
        · cases h2
        exact ⟨p, List.mem_cons_self _ _, hsh, hfromColl h2⟩
      | diverge st =>
        dsimp only at h
        rcases List.mem_cons.mp h with h1 | h1
        · cases h1
        rcases List.mem_cons.mp h1 with h2 | h2
        · cases h2
        exact ⟨p, List.mem_cons_self _ _, hsh, hfromColl h2⟩

theorem copyPhase_ok_cloned (env : CopyDbEnv) (dbName : String)
    (plan : List PlanEntry) (cloned0v clonedv : List String) (evs : List Ev)
    (h : copyPhase env dbName plan cloned0v = (PhaseRes.ok, clonedv, evs))
    (ns : String) :
    ns ∈ clonedv ↔ ns ∈ cloned0v ∨
      ∃ p, p ∈ plan ∧ p.shardedColl = false ∧
        ns = fullNs dbName p.collectionName := by
  induction plan generalizing cloned0v evs with
  | nil =>
    rw [copyPhase] at h
    simp only [Prod.mk.injEq] at h
    obtain ⟨-, h2, -⟩ := h
    subst h2
    simp
  | cons p rest ih =>
    rw [copyPhase] at h
    cases hsh : p.shardedColl with
    | true =>
      rw [hsh, if_pos rfl] at h
      rw [ih cloned0v evs h]
      constructor
      · rintro (h1 | ⟨q, hq, hqs, hqn⟩)
        · exact Or.inl h1
        · exact Or.inr ⟨q, List.mem_cons_of_mem _ hq, hqs, hqn⟩
      · rintro (h1 | ⟨q, hq, hqs, hqn⟩)
        · exact Or.inl h1
        · rcases List.mem_cons.mp hq with h2 | h2
          · subst h2
            rw [hsh] at hqs
            cases hqs
          · exact Or.inr ⟨q, h2, hqs, hqn⟩
    | false =>
      rw [hsh, if_neg (by simp)] at h
      dsimp only at h
      rcases hcc : copyColl { replicated := env.replicated, skipCorrupt := env.skipCorrupt }
          (fullNs dbName p.collectionName) p.options p.idIndexSpec
          ((env.copyEnvs.lookup p.collectionName).getD defaultCollCopyEnv) with ⟨bres, evsC⟩
      rw [hcc] at h
      cases bres with
      | abort e st =>
        dsimp only at h
        simp only [Prod.mk.injEq] at h
        cases h.1
      | diverge st =>
        dsimp only at h
        simp only [Prod.mk.injEq] at h
        cases h.1
      | ok st =>
        dsimp only at h
        rcases hr : copyPhase env dbName rest
            (insertSet cloned0v (fullNs dbName p.collectionName)) with ⟨pres, clonedv2, evs2⟩
        rw [hr] at h
        simp only [Prod.mk.injEq] at h
        obtain ⟨h1, h2, h3⟩ := h
        subst h1
        subst h2
        rw [ih _ _ hr]
        rw [insertSet_mem]
        constructor
        · rintro ((h4 | h4) | ⟨q, hq, hqs, hqn⟩)
          · exact Or.inl h4
          · exact Or.inr ⟨p, List.mem_cons_self _ _, hsh, h4⟩
          · exact Or.inr ⟨q, List.mem_cons_of_mem _ hq, hqs, hqn⟩
        · rintro (h4 | ⟨q, hq, hqs, hqn⟩)
          · exact Or.inl (Or.inl h4)
          · rcases List.mem_cons.mp hq with h5 | h5
            · subst h5
              exact Or.inl (Or.inr hqn)
            · exact Or.inr ⟨q, h5, hqs, hqn⟩

theorem copyPhase_order (env : CopyDbEnv) (dbName : String)
    (plan : List PlanEntry) (cloned0v clonedv : List String) (evs : List Ev)
    (h : copyPhase env dbName plan cloned0v = (PhaseRes.ok, clonedv, evs))
    (p : PlanEntry) (hp : p ∈ plan) (hsh : p.shardedColl = false) :
    ∃ l1 l2 l3, evs = l1 ++ Ev.addCloned (fullNs dbName p.collectionName) ::
      (l2 ++ Ev.beginCopy (fullNs dbName p.collectionName) :: l3) := by
  induction plan generalizing cloned0v evs with
  | nil => cases hp
  | cons q rest ih =>
    rw [copyPhase] at h
    cases hqs : q.shardedColl with
    | true =>
      rw [hqs, if_pos rfl] at h
      have hp2 : p ∈ rest := by
        rcases List.mem_cons.mp hp with h1 | h1
        · subst h1
          rw [hqs] at hsh
          cases hsh
        · exact h1
      exact ih cloned0v evs h hp2
    | false =>
      rw [hqs, if_neg (by simp)] at h
      dsimp only at h
      rcases hcc : copyColl { replicated := env.replicated, skipCorrupt := env.skipCorrupt }
          (fullNs dbName q.collectionName) q.options q.idIndexSpec
          ((env.copyEnvs.lookup q.collectionName).getD defaultCollCopyEnv) with ⟨bres, evsC⟩
      rw [hcc] at h
      cases bres with
      | abort e st =>
        dsimp only at h
        simp only [Prod.mk.injEq] at h
        cases h.1
      | diverge st =>
        dsimp only at h
        simp only [Prod.mk.injEq] at h
        cases h.1
      | ok st =>
        dsimp only at h
        rcases hr : copyPhase env dbName rest
            (insertSet cloned0v (fullNs dbName q.collectionName)) with ⟨pres, clonedv2, evs2⟩
        rw [hr] at h
        simp only [Prod.mk.injEq] at h
        obtain ⟨h1, h2, h3⟩ := h
        subst h1
        subst h2
        rcases List.mem_cons.mp hp with h4 | h4
        · subst h4
          refine ⟨[], [], evsC ++ evs2, ?_⟩
          rw [← h3]
          simp
        · obtain ⟨l1, l2, l3, hsplit⟩ := ih _ _ hr h4
          refine ⟨Ev.addCloned (fullNs dbName q.collectionName) ::
            Ev.beginCopy (fullNs dbName q.collectionName) :: (evsC ++ l1), l2, l3, ?_⟩
          rw [← h3, hsplit]
          simp

theorem buildPlan_sharded_flag (dbName : String) (shardedColls : List String)
    (indexSpecs : List (String × List IdxSpec)) (kept : List CollInfo)
    (p : PlanEntry) (hp : p ∈ buildPlan dbName shardedColls indexSpecs kept) :
    p.shardedColl = shardedColls.contains (fullNs dbName p.collectionName) := by
  rcases List.mem_map.mp hp with ⟨c, hc, hpc⟩
  subst hpc
  rfl

theorem planOf_ok (env : CopyDbEnv) (dbName : String) (shardedColls : List String)
    (plan : List PlanEntry) (h : planOf env dbName shardedColls = Except.ok plan) :
    ∃ kept, filterCollectionsForClone env.collInfos = Except.ok kept ∧
      plan = buildPlan dbName shardedColls env.indexSpecs kept := by
  rw [planOf] at h
  rcases hfc : filterCollectionsForClone env.collInfos with e | kept <;> rw [hfc] at h
  · simp [Except.map] at h
  · refine ⟨kept, rfl, ?_⟩
    simp only [Except.map, Except.ok.injEq] at h
    exact h.symm

/-- C1: in every successful copyDatabase run, no document-commit action
targets a namespace of a sharded-target plan entry (sharded collections
are created but never bulk-loaded by this engine); the returned cloned
set contains exactly the namespaces of the non-sharded plan entries; and
for each non-sharded entry, its namespace is added to the cloned set
before its document copy begins. -/
theorem c1_sharded_never_populated (env : CopyDbEnv) (dbName : String)
    (shardedColls : List String) (catalog : Catalog) (cloned0 cloned : List String)
    (catalog1 : Catalog) (trace : List Ev) (plan : List PlanEntry)
    (hrun : copyDb env dbName shardedColls catalog cloned0 =
      (CopyDbRes.ok cloned, catalog1, trace))
    (hplan : planOf env dbName shardedColls = Except.ok plan) :
    (∀ p ∈ plan, p.shardedColl = true →
        ∀ d, Ev.commitDoc (fullNs dbName p.collectionName) d ∉ trace)
  ∧ (∀ ns, ns ∈ cloned ↔
        ∃ p ∈ plan, p.shardedColl = false ∧ ns = fullNs dbName p.collectionName)
  ∧ (∀ p ∈ plan, p.shardedColl = false →
        ∃ l1 l2 l3, trace = l1 ++ Ev.addCloned (fullNs dbName p.collectionName) ::
          (l2 ++ Ev.beginCopy (fullNs dbName p.collectionName) :: l3)) := by
  rcases hph : env.parsedHosts with _ | hosts
  · rw [copyDb, hph] at hrun
    simp at hrun
  · rw [copyDb, hph] at hrun
    dsimp only at hrun
    by_cases hself : (hosts.any fun h => env.selfHosts.contains h) = true
    · rw [if_pos hself] at hrun
      simp at hrun
    rw [if_neg hself] at hrun
    by_cases hconn : (!env.connectOk) = true
    · rw [if_pos hconn] at hrun
      simp at hrun
    rw [if_neg hconn] at hrun
    by_cases hauth : (env.internalAuthSet && !env.authOk) = true
    · rw [if_pos hauth] at hrun
      simp at hrun
    rw [if_neg hauth] at hrun
    rw [hplan] at hrun
    dsimp only at hrun
    by_cases hrepl : (env.replicated && !env.canAcceptDb) = true
    · rw [if_pos hrepl] at hrun
      simp at hrun
    rw [if_neg hrepl] at hrun
    rcases hcr : createCollectionsForDb env.createEnv dbName catalog 0 plan
        with ⟨cres, evsC⟩
    rw [hcr] at hrun
    cases cres with
    | err e cat2 => simp at hrun
    | diverge cat2 => simp at hrun
    | ok cat2 =>
      dsimp only at hrun
      rcases hcp : copyPhase env dbName plan [] with ⟨pres, clonedv, evs2⟩
      rw [hcp] at hrun
      cases pres with
      | err e => simp at hrun
      | diverge => simp at hrun
      | ok =>
        dsimp only at hrun
        rcases hip : indexPhase env dbName plan with ⟨ires, evs3⟩
        rw [hip] at hrun
        cases ires with
        | err e => simp at hrun
        | diverge => simp at hrun
        | ok =>
          dsimp only at hrun
          simp only [Prod.mk.injEq, CopyDbRes.ok.injEq] at hrun
          obtain ⟨h1, h2, h3⟩ := hrun
          subst h1
          subst h2
          subst h3
          obtain ⟨kept, hfc, hplan2⟩ := planOf_ok env dbName shardedColls plan hplan
          refine ⟨?_, ?_, ?_⟩
          · intro p hp hpsh d hmem
            rcases List.mem_cons.mp hmem with h4 | h4
            · cases h4
            rcases List.mem_append.mp h4 with h5 | h5
            · rcases List.mem_append.mp h5 with h6 | h6
              · have := commitDoc_not_mem_creator env.createEnv dbName catalog 0 plan
                  (fullNs dbName p.collectionName) d
                rw [hcr] at this
                exact this h6
              · obtain ⟨q, hq, hqs, hqn⟩ := copyPhase_commit_src env dbName plan []
                  (fullNs dbName p.collectionName) d (by rw [hcp]; exact h6)
                have hfp := buildPlan_sharded_flag dbName shardedColls env.indexSpecs
                  kept p (hplan2 ▸ hp)
                have hfq := buildPlan_sharded_flag dbName shardedColls env.indexSpecs
                  kept q (hplan2 ▸ hq)
                have hA : shardedColls.contains (fullNs dbName p.collectionName) = true :=
                  hfp.symm.trans hpsh
                have hB : shardedColls.contains (fullNs dbName q.collectionName) = false :=
                  hfq.symm.trans hqs
                rw [hqn] at hA
                rw [hA] at hB
                cases hB
            · have := commitDoc_not_mem_indexPhase env dbName plan
                (fullNs dbName p.collectionName) d
              rw [hip] at this
              exact this h5
          · intro ns
            rw [copyPhase_ok_cloned env dbName plan [] clonedv evs2 hcp ns]
            simp
          · intro p hp hpsh
            obtain ⟨l1, l2, l3, hsplit⟩ := copyPhase_order env dbName plan []
              clonedv evs2 hcp p hp hpsh
            refine ⟨Ev.connectRemote :: (evsC ++ l1), l2, l3 ++ evs3, ?_⟩
            rw [hsplit]
            simp

/-- Concrete remote descriptor of the non-sharded collection a. -/
def aInfo : CollInfo :=
  { collName := "a"
    hasOptionsObj := true
    optionsParseOk := true
    options := 0
    idIndex := some { specName := "_id_", body := 0 }
    infoUuid := some 1
    isSystem := false
    isLegalClientSystemNS := true
    nameOk := true }

/-- Concrete remote descriptor of the sharded collection b. -/
def bInfo : CollInfo :=
  { collName := "b"
    hasOptionsObj := true
    optionsParseOk := true
    options := 0
    idIndex := some { specName := "_id_", body := 0 }
    infoUuid := some 2
    isSystem := false
    isLegalClientSystemNS := true
    nameOk := true }

/-- Concrete per-batch entry environment with the collection present. -/
def okEntry : FunEntryEnv :=
  { canAcceptWrites := true
    collExists := true
    createIters := [WCIter.run]
    optionsParseOk := true
    createOk := true }

/-- Concrete batch element whose insert succeeds. -/
def okDoc : DocItem :=
  { env :=
      { interrupted := false
        canAcceptWrites := true
        dbExists := true
        collExists := true }
    doc := { docId := 7, wellFormed := true }
    attempts := [WCAttempt.done InsertOutcome.ok] }

/-- Concrete copy environment delivering one batch of one document. -/
def aCopyEnv : CollCopyEnv :=
  { batches := [(okEntry, [okDoc])]
    finalCanAccept := true }

/-- Concrete copyDb environment with one non-sharded and one sharded
collection. -/
def c1Env : CopyDbEnv :=
  { parsedHosts := some [1]
    selfHosts := []
    connectOk := true
    internalAuthSet := false
    authOk := true
    collInfos := [aInfo, bInfo]
    indexSpecs := []
    replicated := false
    skipCorrupt := false
    canAcceptDb := true
    createEnv := plainCreateEnv
    copyEnvs := [("a", aCopyEnv)]
    idxEnvs := [] }

/-- The concrete plan built by the c1Env invocation. -/
def c1Plan : List PlanEntry :=
  [{ collectionName := "a"
     options := 0
     infoUuid := some 1
     idIndexSpec := some { specName := "_id_", body := 0 }
     shardedColl := false },
   { collectionName := "b"
     options := 0
     infoUuid := some 2
     idIndexSpec := some { specName := "_id_", body := 0 }
     shardedColl := true }]

/-- The concrete catalog produced by the c1Env invocation. -/
def c1Catalog : Catalog := [("db.b", some 2), ("db.a", none)]

/-- The concrete trace produced by the c1Env invocation. -/
def c1Trace : List Ev :=
  [Ev.connectRemote,
   Ev.checkInterrupt,
   Ev.createColl "db.a" 0 true (some { specName := "_id_", body := 0 }),
   Ev.checkInterrupt,
   Ev.createColl "db.b" 0 true (some { specName := "_id_", body := 0 }),
   Ev.addCloned "db.a",
   Ev.beginCopy "db.a",
   Ev.checkInterrupt,
   Ev.insertAttempt "db.a" 7,
   Ev.commitDoc "db.a" 7]

/-- C1 witness: the theorem applied to the concrete two-collection
environment, one non-sharded (cloned and populated) and one sharded
(created but never populated). -/
theorem c1_witness :
    (∀ p ∈ c1Plan, p.shardedColl = true →
        ∀ d, Ev.commitDoc (fullNs "db" p.collectionName) d ∉ c1Trace)
  ∧ (∀ ns, ns ∈ ["db.a"] ↔
        ∃ p ∈ c1Plan, p.shardedColl = false ∧ ns = fullNs "db" p.collectionName)
  ∧ (∀ p ∈ c1Plan, p.shardedColl = false →
        ∃ l1 l2 l3, c1Trace = l1 ++ Ev.addCloned (fullNs "db" p.collectionName) ::
          (l2 ++ Ev.beginCopy (fullNs "db" p.collectionName) :: l3)) :=
  c1_sharded_never_populated c1Env "db" ["db.b"] [] [] ["db.a"] c1Catalog c1Trace
    c1Plan (by decide) rfl

end ClonerModel
